import Mathlib

/-!
Verification of the circle-physics engine (src/physics.js).

The engine simulates circles moving and colliding on a 2d plane. We give a
shallow embedding over the reals: JS numbers become `ℝ`, the tri-state
`shotCurve` field (`false` or a number) becomes `Option ℝ`, the mutable item
array becomes a `List Item` with items identified by their index, and the
per-item memo cache is modelled by purity (every cached quantity is a pure
function of the item state, and `setPos` invalidates the cache in the source,
so recomputation agrees with the cache).

Visual-only fields (`bs`, `bearing`, `rotation`, `ghost`) and debug drawing
are omitted: they are never read by the physics math.  The engine `config` is
fixed at its defaults (`stepCollisions = false`, `stopSpeed = 0.01`,
`curveAmplifier = 1`), matching the values the claims are about.
-/

noncomputable section

namespace CirclePhysics

/-- config.stopSpeed: threshold below which speed snaps to 0. -/
def stopSpeed : ℝ := 1/100

/-- config.curveAmplifier: scales the lateral curve deviation. -/
def curveAmplifier : ℝ := 1

/-- config.maxSpeed: clamp for pushed speed. -/
def maxSpeed : ℝ := 40

/-- A 2d point, as used for `item.pos` (top-left corner of the bounding box). -/
structure Pt where
  x : ℝ
  y : ℝ

/-- `Physics.Item`: the mutable per-body state of one circle.
`shotCurve = none` models the JS value `false` (no active curve shot). -/
structure Item where
  pos : Pt
  radius : ℝ
  power : ℝ
  speed : ℝ
  course : ℝ
  shotCourse : ℝ
  shotCurve : Option ℝ
  shotOriginX : ℝ
  shotOriginY : ℝ
  shotDistance : ℝ
  shotTraveled : ℝ
  unused : ℝ
  friction : ℝ
  disabled : Bool

/-- Default field values from `Item.prototype` (used only to make list
indexing total; the engine never reads an out-of-range index). -/
instance : Inhabited Item :=
  ⟨{ pos := ⟨0, 0⟩, radius := 0, power := 0, speed := 0, course := 0,
     shotCourse := 0, shotCurve := none, shotOriginX := 0, shotOriginY := 0,
     shotDistance := 0, shotTraveled := 0, unused := -1, friction := 9/10,
     disabled := false }⟩

/-- `abcSquare(a, b) = Math.abs(Math.pow(a*a + b*b, 0.5))`: the hypotenuse. -/
def abcSquare (a b : ℝ) : ℝ := |Real.sqrt (a ^ 2 + b ^ 2)|

/-- `Math.atan2(y, x)` (JS semantics at real arguments). -/
def atan2 (y x : ℝ) : ℝ :=
  if 0 < x then Real.arctan (y / x)
  else if x < 0 then
    (if 0 ≤ y then Real.arctan (y / x) + Real.pi else Real.arctan (y / x) - Real.pi)
  else if 0 < y then Real.pi / 2
  else if y < 0 then -(Real.pi / 2)
  else 0

/-- `getCourse(x1, y1, x2, y2) = Math.atan2(y2 - y1, x2 - x1)`. -/
def getCourse (x1 y1 x2 y2 : ℝ) : ℝ := atan2 (y2 - y1) (x2 - x1)

/-- `angleBetween(A, B) = Math.cos((A - B) + PI/2)`. -/
def angleBetween (A B : ℝ) : ℝ := Real.cos ((A - B) + Real.pi / 2)

/-- `distanceBetween(a, b)`: Euclidean distance between the item centers
(center = pos + radius in each coordinate). -/
def distanceBetween (a b : Item) : ℝ :=
  abcSquare ((a.pos.x + a.radius) - (b.pos.x + b.radius))
    ((a.pos.y + a.radius) - (b.pos.y + b.radius))

/-- `distanceToTravel(speed, friction)`: closed-form total distance of the
friction-decayed run.  `Math.pow` at a positive base with real exponent is
`Real.rpow`. -/
def distanceToTravel (speed friction : ℝ) : ℝ :=
  if speed = 0 then 0
  else
    (speed * (1 - friction ^ (Real.log (stopSpeed / speed) / Real.log friction + 1))) /
      (1 - friction)

/-- `getShotProgressToPi(item)`: shot progress normalized to `[0, π]`. -/
def getShotProgressToPi (item : Item) : ℝ :=
  ((item.shotTraveled + item.speed) / item.shotDistance) * Real.pi

/-- The numeric value of `item.shotCurve` (only consumed when a curve shot is
active, i.e. `shotCurve ≠ none`). -/
def curveValue (item : Item) : ℝ := item.shotCurve.getD 0

/-- The local `y` of `getNextCurvePos`: height of the sine wave. -/
def curveY (item : Item) : ℝ :=
  Real.sin (getShotProgressToPi item) * curveValue item * curveAmplifier

/-- The local `alpha` of `getNextCurvePos`: deflection angle `atan(y/x)`. -/
def curveAlpha (item : Item) : ℝ :=
  Real.arctan (curveY item / getShotProgressToPi item)

/-- The local `realY` of `getNextCurvePos`: true lateral offset. -/
def realY (item : Item) : ℝ := (curveY item / Real.pi) * item.shotDistance

/-- The local `curveStepDistance` of `getNextCurvePos`: radial distance from
the shot origin after this step. -/
def curveStepDistance (item : Item) : ℝ :=
  abcSquare (item.shotTraveled + item.speed) (realY item)

/-- `getNextCurvePos(item)`: next position on the sine-approximated arc. -/
def getNextCurvePos (item : Item) : Pt :=
  ⟨item.shotOriginX + Real.cos (item.shotCourse - curveAlpha item) * curveStepDistance item,
   item.shotOriginY + Real.sin (item.shotCourse - curveAlpha item) * curveStepDistance item⟩

/-- `getStepDistance(item)`: distance travelled this step at current
parameters; the chord of the arc for curve shots, `speed` otherwise, scaled
by `unused`. -/
def getStepDistance (item : Item) : ℝ :=
  (match item.shotCurve with
   | none => item.speed
   | some _ =>
     abcSquare ((getNextCurvePos item).x - item.pos.x)
       ((getNextCurvePos item).y - item.pos.y)) * item.unused

/-- `getNextPos(item)`: next position (straight or on the curve). -/
def getNextPos (item : Item) : Pt :=
  match item.shotCurve with
  | none =>
    ⟨item.pos.x + Real.cos item.course * item.speed,
     item.pos.y + Real.sin item.course * item.speed⟩
  | some _ => getNextCurvePos item

/-- `getCourseToNextPositionOnCurve(item)`: center-to-center bearing from the
current position to the next position. -/
def getCourseToNextPositionOnCurve (item : Item) : ℝ :=
  getCourse (item.pos.x + item.radius) (item.pos.y + item.radius)
    ((getNextPos item).x + item.radius) ((getNextPos item).y + item.radius)

/-- The local `dx` of `getDistanceToIntersection`:
`(aacx - acx) - (bbcx - bcx)`, A's x-displacement relative to B. -/
def interDx (A B : Item) : ℝ :=
  Real.cos A.course * getStepDistance A - Real.cos B.course * getStepDistance B

/-- The local `dy` of `getDistanceToIntersection`. -/
def interDy (A B : Item) : ℝ :=
  Real.sin A.course * getStepDistance A - Real.sin B.course * getStepDistance B

/-- The local `fx` of `getDistanceToIntersection`: `acx - bcx`. -/
def interFx (A B : Item) : ℝ := (A.pos.x + A.radius) - (B.pos.x + B.radius)

/-- The local `fy` of `getDistanceToIntersection`: `acy - bcy`. -/
def interFy (A B : Item) : ℝ := (A.pos.y + A.radius) - (B.pos.y + B.radius)

/-- The quadratic coefficient `a = dx*dx + dy*dy`. -/
def quadA (A B : Item) : ℝ := interDx A B ^ 2 + interDy A B ^ 2

/-- The quadratic coefficient `b = 2*(fx*dx + fy*dy)`. -/
def quadB (A B : Item) : ℝ :=
  2 * (interFx A B * interDx A B + interFy A B * interDy A B)

/-- The quadratic coefficient
`c = (fx*fx + fy*fy) - combinedRadius*combinedRadius`. -/
def quadC (A B : Item) : ℝ :=
  interFx A B ^ 2 + interFy A B ^ 2 - (A.radius + B.radius) ^ 2

/-- The local `discriminant = b*b - 4*a*c`. -/
def discrim (A B : Item) : ℝ := quadB A B ^ 2 - 4 * quadA A B * quadC A B

/-- The root `t1 = (-b + sqrt(discriminant)) / (2a)`. -/
def rootT1 (A B : Item) : ℝ :=
  (-quadB A B + Real.sqrt (discrim A B)) / (2 * quadA A B)

/-- The root `t2 = (-b - sqrt(discriminant)) / (2a)`. -/
def rootT2 (A B : Item) : ℝ :=
  (-quadB A B - Real.sqrt (discrim A B)) / (2 * quadA A B)

/-- `getDistanceToIntersection(A, B)`: forward distance along A's heading at
which the moving circle A first touches B (B's motion subtracted out), or
`-1` if there is no contact within this step. -/
def getDistanceToIntersection (A B : Item) : ℝ :=
  if discrim A B ≤ 0 then -1
  else if (rootT1 A B < 0 ∨ rootT1 A B > 1) ∧ (rootT2 A B < 0 ∨ rootT2 A B > 1) then -1
  else
    (if rootT1 A B < rootT2 A B ∧ rootT1 A B ≥ 0 then rootT1 A B else rootT2 A B) *
      getStepDistance A

/-- The moved `B` of `updateForCollision`: curve state cleared, advanced along
its own course by its own contact distance `getDistanceToIntersection(B, A)`. -/
def collisionMovedB (A B : Item) : Item :=
  { B with
    shotCurve := none,
    pos := ⟨B.pos.x + Real.cos B.course * getDistanceToIntersection B A,
            B.pos.y + Real.sin B.course * getDistanceToIntersection B A⟩ }

/-- The moved `A` of `updateForCollision`: curve state cleared, advanced to the
contact point, then re-placed at 95% of the contact distance if the centers
still sit closer than the combined radii (floating-point slack in the
source). -/
def collisionMovedA (A B : Item) (dA : ℝ) : Item :=
  let A1 : Item := { A with
    shotCurve := none,
    pos := ⟨A.pos.x + Real.cos A.course * dA, A.pos.y + Real.sin A.course * dA⟩ }
  if distanceBetween A1 (collisionMovedB A B) < A.radius + B.radius then
    { A1 with pos := ⟨A.pos.x + Real.cos A.course * dA * 0.95,
                      A.pos.y + Real.sin A.course * dA * 0.95⟩ }
  else A1

/-- The `abCourse` of `updateForCollision`: bearing from A's moved position to
B's moved position.  The source uses the top-left `pos` corners here, not the
centers. -/
def collisionAbCourse (A B : Item) (dA : ℝ) : ℝ :=
  getCourse (collisionMovedA A B dA).pos.x (collisionMovedA A B dA).pos.y
    (collisionMovedB A B).pos.x (collisionMovedB A B).pos.y

/-- The bearing between the moved centers, following the specification's
wording ("the A-B center line"); used to compare against what the source
actually computes. -/
def centerAbCourse (A B : Item) (dA : ℝ) : ℝ :=
  getCourse ((collisionMovedA A B dA).pos.x + A.radius)
    ((collisionMovedA A B dA).pos.y + A.radius)
    ((collisionMovedB A B).pos.x + B.radius) ((collisionMovedB A B).pos.y + B.radius)

/-- `updateForCollision(A, B, distanceToCollisionA)`: resolve a collision of
the pair, returning the updated `(A, B)`.  Mirrors the source statement by
statement: clear curve state, move both to the contact configuration, re-place
A at 95% on residual overlap, shrink `unused`, set the tangent/center-line
courses, and transfer speed by `relAngle` and power. -/
def updateForCollision (A B : Item) (dA : ℝ) : Item × Item :=
  let stepA := getStepDistance A
  let stepB := getStepDistance B
  let dB := getDistanceToIntersection B A
  let abCourse := collisionAbCourse A B dA
  let tangentCourse := abCourse - Real.pi / 2
  let relAngle := angleBetween A.course abCourse
  let F := A.speed * A.power / B.power
  ({ collisionMovedA A B dA with
      unused := A.unused * (dA / stepA),
      course := if relAngle > 0 then tangentCourse else tangentCourse - Real.pi,
      speed := A.speed * |relAngle| },
   { collisionMovedB A B with
      unused := if stepB ≠ 0 then B.unused * (dB / stepB) else B.unused,
      course := abCourse,
      speed := F * (1 - |relAngle|) })

/-- The world is the engine's `items` array; items are identified by index. -/
abbrev World := List Item

/-- Read the item at an index (`items[i]`); total via the prototype default,
which the engine never reaches (all used indices are in range). -/
def getItem (w : World) (i : ℕ) : Item := List.getD w i default

/-- Length of the item list, exposed for index bookkeeping. -/
def size (w : World) : ℕ := List.length w

/-- Write the item at an index. -/
def setItem (w : World) (i : ℕ) (it : Item) : World := List.set w i it

/-- `getClosestItemAfterMove(A, B, distance)`: index of the first other item
that would be closer to A's warped center than the combined A-B radius, or
`B`'s index if there is none. -/
def getClosestItemAfterMove (w : World) (ai bi : ℕ) (d : ℝ) : ℕ :=
  let A := getItem w ai
  let B := getItem w bi
  let warpAx := A.pos.x + A.radius + Real.cos A.course * d
  let warpAy := A.pos.y + A.radius + Real.sin A.course * d
  match (List.range (size w)).find? (fun k =>
      decide (k ≠ ai ∧ k ≠ bi ∧
        abcSquare (warpAx - ((getItem w k).pos.x + (getItem w k).radius))
            (warpAy - ((getItem w k).pos.y + (getItem w k).radius)) <
          A.radius + B.radius)) with
  | some k => k
  | none => bi

/-- The local `A` of `updateIfColliding`: the faster of the pair. -/
def pickA (w : World) (i j : ℕ) : ℕ :=
  if (getItem w i).speed ≥ (getItem w j).speed then i else j

/-- The local `B` of `updateIfColliding`: the other one of the pair. -/
def pickB (w : World) (i j : ℕ) : ℕ := if pickA w i j = i then j else i

/-- `updateIfColliding(item1, item2, _attempt)`: check whether the pair will
collide this step and, if so, resolve the collision (possibly against a closer
occluding item, by bounded recursion).  `fuel` counts the recursive attempts
still allowed: the source starts at `_attempt = 1` and recurses only while
`_attempt < 20`, i.e. `fuel = 20 - _attempt`, starting at 19. -/
def updateIfColliding (w : World) (i j fuel : ℕ) : World × Bool :=
  let ai := pickA w i j
  let bi := pickB w i j
  let d := getDistanceToIntersection (getItem w ai) (getItem w bi)
  if 0 < d then
    (if h : getClosestItemAfterMove w ai bi d ≠ bi ∧ fuel ≠ 0 then
      ((updateIfColliding w ai (getClosestItemAfterMove w ai bi d) (fuel - 1)).1, true)
    else
      let p := updateForCollision (getItem w ai) (getItem w bi) d
      (setItem (setItem w ai p.1) bi p.2, true))
  else (w, false)
termination_by fuel
decreasing_by exact Nat.sub_lt (Nat.pos_of_ne_zero h.2) Nat.one_pos

/-- `orderByDistance(items.slice(0), source)`: indices of all items sorted by
ascending distance to the source item (a stable sort, as the engine relies
on). -/
def orderByDistance (w : World) (src : ℕ) : List ℕ :=
  List.mergeSort (List.range (size w)) (fun a b =>
    decide (distanceBetween (getItem w src) (getItem w a) ≤
      distanceBetween (getItem w src) (getItem w b)))

/-- The inner `for` loop of `collisionStep`: try the ordered candidates in
turn; the first confirmed collision stops the sweep. -/
def tryCandidates (w : World) (src : ℕ) : List ℕ → World × Bool
  | [] => (w, false)
  | c :: rest =>
    let r := updateIfColliding w src c 19
    if r.2 then (r.1, true) else tryCandidates r.1 src rest

/-- The `items.some` scan of `collisionStep`, over item indices. -/
def collisionScan (w : World) : List ℕ → World × Bool
  | [] => (w, false)
  | k :: rest =>
    if (getItem w k).speed ≠ 0 ∧ (getItem w k).unused ≠ 0 then
      let r := tryCandidates w k (orderByDistance w k).tail
      if r.2 then (r.1, true) else collisionScan r.1 rest
    else collisionScan w rest

/-- `collisionStep()`: sweep the system for collisions once; handle only the
first collision found. -/
def collisionStep (w : World) : World × Bool := collisionScan w (List.range (size w))

/-- The `do .. while (thisTime && ++loopBreaker < 10)` pass loop of `tick`,
returning the final world and the number of passes executed.  `fuel` is the
number of passes still allowed (10 at the top call). -/
def runPasses : ℕ → World → World × ℕ
  | 0, w => (w, 0)
  | n + 1, w =>
    let p := collisionStep w
    if p.2 then
      let q := runPasses n p.1
      (q.1, q.2 + 1)
    else (p.1, 1)

/-- `resetItems()`: every item gets its full movement budget back. -/
def resetItems (w : World) : World :=
  List.map (fun it : Item => { it with unused := 1 }) w

/-- The per-item body of `applyPhysics`: move (straight or on the curve),
account the travelled distance, re-derive the course while on a curve, apply
friction, snap small speeds to zero, and consume the step budget. -/
def applyItem (item : Item) : Item :=
  if item.speed ≠ 0 ∧ item.unused ≠ 0 then
    let p : Pt :=
      match item.shotCurve with
      | some _ => getNextCurvePos item
      | none =>
        ⟨item.pos.x + Real.cos item.course * item.speed * item.unused,
         item.pos.y + Real.sin item.course * item.speed * item.unused⟩
    let it1 : Item := { item with pos := p, shotTraveled := item.shotTraveled + item.speed }
    let it2 : Item :=
      match item.shotCurve with
      | some _ => { it1 with course := getCourseToNextPositionOnCurve it1 }
      | none => it1
    { it2 with
      speed := if it2.speed * it2.friction < stopSpeed then 0 else it2.speed * it2.friction,
      unused := 0 }
  else item

/-- `applyPhysics()`: apply movement and friction to every item and report
whether any stone is still moving. -/
def applyPhysics (w : World) : World × Bool :=
  (List.map applyItem w, List.any (List.map applyItem w) (fun it => decide (it.speed ≠ 0)))

/-- `tick()` with the default configuration (`stepCollisions = false`, so the
items are always reset and physics is always applied). -/
def tick (w : World) : World × Bool :=
  applyPhysics (runPasses 10 (resetItems w)).1

/-- The scan of `collisionCheck`: the first pair `(i, j)`, `i < j` in scan
order, whose earlier item is not disabled and whose positions (top-left
corners, as in the source) are closer than the combined radii. -/
def findOverlap (w : World) : Option (ℕ × ℕ) :=
  (List.range (size w)).findSome? (fun i =>
    if (getItem w i).disabled then none
    else
      ((List.range (size w)).find? (fun j =>
        decide (i < j ∧
          abcSquare ((getItem w i).pos.x - (getItem w j).pos.x)
              ((getItem w i).pos.y - (getItem w j).pos.y) <
            (getItem w i).radius + (getItem w j).radius))).map (fun j => (i, j)))

/-- `collisionCheck()`: diagnostic overlap pass.  On the first overlapping
pair it nudges the two headings apart (A to the matching tangent end, B along
the A-to-B line) and reports `true`. -/
def collisionCheck (w : World) : World × Bool :=
  match findOverlap w with
  | none => (w, false)
  | some (i, j) =>
    let A := getItem w i
    let B := getItem w j
    let abCourse := getCourse A.pos.x A.pos.y B.pos.x B.pos.y
    let tangentCourse := abCourse - Real.pi / 2
    let relAngle := angleBetween A.course abCourse
    (setItem (setItem w i
        { A with course := if relAngle > 0 then tangentCourse else tangentCourse - Real.pi })
        j { B with course := abCourse },
     true)

/-- Modelled from the spec: the iterative simulation of `distanceToTravel`
(\"apply `speed *= friction` until `speed < stopSpeed`, summing `speed` each
step\").  `simSteps` is the number of loop iterations; the sum is the
travelled distance. -/
def simSteps (speed friction : ℝ) : ℕ :=
  letI : ∀ p : Prop, Decidable p := fun p => Classical.propDecidable p
  if h : ∃ n : ℕ, speed * friction ^ n < stopSpeed then Nat.find h else 0

/-- Modelled from the spec: total distance of the iterative simulation. -/
def iterativeDistance (speed friction : ℝ) : ℝ :=
  ∑ i ∈ Finset.range (simSteps speed friction), speed * friction ^ i

/-! ### Basic facts about the geometry helpers -/

theorem abcSquare_nonneg (a b : ℝ) : 0 ≤ abcSquare a b := abs_nonneg _

theorem abcSquare_eq_sqrt (a b : ℝ) : abcSquare a b = Real.sqrt (a ^ 2 + b ^ 2) :=
  abs_of_nonneg (Real.sqrt_nonneg _)

theorem getStepDistance_nonneg (it : Item) (hs : 0 ≤ it.speed) (hu : 0 ≤ it.unused) :
    0 ≤ getStepDistance it := by
  unfold getStepDistance
  cases h : it.shotCurve with
  | none => exact mul_nonneg hs hu
  | some c => exact mul_nonneg (abcSquare_nonneg _ _) hu

theorem abs_angleBetween_le_one (a b : ℝ) : |angleBetween a b| ≤ 1 := by
  unfold angleBetween
  exact Real.abs_cos_le_one _

/-! ### The intersection quadratic -/

theorem quadA_nonneg (A B : Item) : 0 ≤ quadA A B :=
  add_nonneg (sq_nonneg _) (sq_nonneg _)

theorem quadA_pos_of_discrim_pos (A B : Item) (h : 0 < discrim A B) : 0 < quadA A B := by
  rcases eq_or_lt_of_le (quadA_nonneg A B) with heq | hlt
  · exfalso
    have hsum : interDx A B ^ 2 + interDy A B ^ 2 = 0 := by
      unfold quadA at heq; linarith
    have hdx2 : interDx A B ^ 2 = 0 :=
      le_antisymm (by linarith [sq_nonneg (interDy A B)]) (sq_nonneg _)
    have hdy2 : interDy A B ^ 2 = 0 :=
      le_antisymm (by linarith [sq_nonneg (interDx A B)]) (sq_nonneg _)
    have hdx0 : interDx A B = 0 := sq_eq_zero_iff.mp hdx2
    have hdy0 : interDy A B = 0 := sq_eq_zero_iff.mp hdy2
    have hb : quadB A B = 0 := by unfold quadB; rw [hdx0, hdy0]; ring
    have : discrim A B = 0 := by unfold discrim; rw [hb, ← heq]; ring
    linarith
  · exact hlt

theorem rootT2_le_rootT1 (A B : Item) (h : 0 < discrim A B) : rootT2 A B ≤ rootT1 A B := by
  have ha : 0 < quadA A B := quadA_pos_of_discrim_pos A B h
  unfold rootT1 rootT2
  apply div_le_div_of_le_of_nonneg _ (by linarith)
  have := Real.sqrt_nonneg (discrim A B)
  linarith

/-- Branch analysis of `getDistanceToIntersection` at a positive return value:
the chosen parametric root is `t2`, it lies in `(0, 1]`, and the step distance
is positive. -/
theorem gdi_pos_elim (A B : Item) (hstep : 0 ≤ getStepDistance A)
    (h : 0 < getDistanceToIntersection A B) :
    0 < discrim A B ∧ 0 < rootT2 A B ∧ rootT2 A B ≤ 1 ∧ 0 < getStepDistance A ∧
      getDistanceToIntersection A B = rootT2 A B * getStepDistance A := by
  unfold getDistanceToIntersection at h ⊢
  by_cases hd : discrim A B ≤ 0
  · rw [if_pos hd] at h; linarith
  push_neg at hd
  rw [if_neg (by linarith)] at h ⊢
  by_cases hout : (rootT1 A B < 0 ∨ rootT1 A B > 1) ∧ (rootT2 A B < 0 ∨ rootT2 A B > 1)
  · rw [if_pos hout] at h; linarith
  rw [if_neg hout] at h ⊢
  have hsel : ¬(rootT1 A B < rootT2 A B ∧ rootT1 A B ≥ 0) := by
    intro hc
    exact absurd hc.1 (not_lt.mpr (rootT2_le_rootT1 A B hd))
  rw [if_neg hsel] at h ⊢
  have hmul := mul_pos_iff.mp h
  have hstep_pos : 0 < getStepDistance A := by
    rcases hmul with ⟨_, hp⟩ | ⟨_, hn⟩
    · exact hp
    · linarith
  have ht2_pos : 0 < rootT2 A B := by
    rcases hmul with ⟨hp, _⟩ | ⟨_, hn⟩
    · exact hp
    · linarith
  refine ⟨hd, ht2_pos, ?_, hstep_pos, rfl⟩
  by_cases hin2 : rootT2 A B < 0 ∨ rootT2 A B > 1
  · have hin1 : ¬(rootT1 A B < 0 ∨ rootT1 A B > 1) := fun hc => hout ⟨hc, hin2⟩
    push_neg at hin1
    have ht12 := rootT2_le_rootT1 A B hd
    rcases hin2 with hneg | hbig
    · linarith
    · linarith [hin1.2]
  · push_neg at hin2
    exact hin2.2

/-! ### Symmetry of the quadratic in the two bodies -/

theorem interDx_symm (A B : Item) : interDx B A = -interDx A B := by unfold interDx; ring

theorem interDy_symm (A B : Item) : interDy B A = -interDy A B := by unfold interDy; ring

theorem interFx_symm (A B : Item) : interFx B A = -interFx A B := by unfold interFx; ring

theorem interFy_symm (A B : Item) : interFy B A = -interFy A B := by unfold interFy; ring

theorem quadA_symm (A B : Item) : quadA B A = quadA A B := by
  unfold quadA; rw [interDx_symm, interDy_symm]; ring

theorem quadB_symm (A B : Item) : quadB B A = quadB A B := by
  unfold quadB; rw [interDx_symm, interDy_symm, interFx_symm, interFy_symm]; ring

theorem quadC_symm (A B : Item) : quadC B A = quadC A B := by
  unfold quadC; rw [interFx_symm, interFy_symm]; ring

theorem discrim_symm (A B : Item) : discrim B A = discrim A B := by
  unfold discrim; rw [quadA_symm, quadB_symm, quadC_symm]

theorem rootT1_symm (A B : Item) : rootT1 B A = rootT1 A B := by
  unfold rootT1; rw [quadA_symm, quadB_symm, discrim_symm]

theorem rootT2_symm (A B : Item) : rootT2 B A = rootT2 A B := by
  unfold rootT2; rw [quadA_symm, quadB_symm, discrim_symm]

/-- When `getDistanceToIntersection A B` takes a branch, the reversed call
takes the same branch, with A's step distance replaced by B's. -/
theorem gdi_rev (A B : Item) (hstep : 0 ≤ getStepDistance A)
    (h : 0 < getDistanceToIntersection A B) :
    getDistanceToIntersection B A = rootT2 A B * getStepDistance B := by
  obtain ⟨hd, ht2, ht2le, _, _⟩ := gdi_pos_elim A B hstep h
  unfold getDistanceToIntersection
  rw [discrim_symm, rootT1_symm, rootT2_symm]
  have hnot : ¬((rootT1 A B < 0 ∨ rootT1 A B > 1) ∧ (rootT2 A B < 0 ∨ rootT2 A B > 1)) := by
    intro hc
    rcases hc.2 with hneg | hbig
    · linarith
    · linarith
  rw [if_neg (by linarith), if_neg hnot,
    if_neg (fun hc => absurd hc.1 (not_lt.mpr (rootT2_le_rootT1 A B hd)))]

/-! ### Concrete test bodies used by the witnesses: A (radius 1, centered at
the origin, heading along the positive x axis at speed 20) and B (radius 1,
at rest with center `(10, 0)`). -/

def itA : Item :=
  { pos := ⟨-1, -1⟩, radius := 1, power := 1, speed := 20, course := 0,
    shotCourse := 0, shotCurve := none, shotOriginX := 0, shotOriginY := 0,
    shotDistance := 0, shotTraveled := 0, unused := 1, friction := 9/10,
    disabled := false }

def itB : Item :=
  { pos := ⟨9, -1⟩, radius := 1, power := 1, speed := 0, course := 0,
    shotCourse := 0, shotCurve := none, shotOriginX := 0, shotOriginY := 0,
    shotDistance := 0, shotTraveled := 0, unused := 1, friction := 9/10,
    disabled := false }

theorem step_itA : getStepDistance itA = 20 := by
  simp [getStepDistance, itA]

theorem step_itB : getStepDistance itB = 0 := by
  simp [getStepDistance, itB]

theorem interDx_AB : interDx itA itB = 20 := by
  unfold interDx
  rw [step_itA, step_itB]
  show Real.cos itA.course * 20 - Real.cos itB.course * 0 = 20
  simp [itA, itB]

theorem interDy_AB : interDy itA itB = 0 := by
  unfold interDy
  rw [step_itA, step_itB]
  show Real.sin itA.course * 20 - Real.sin itB.course * 0 = 0
  simp [itA, itB]

theorem interFx_AB : interFx itA itB = -10 := by
  show (itA.pos.x + itA.radius) - (itB.pos.x + itB.radius) = -10
  simp [itA, itB]
  norm_num

theorem interFy_AB : interFy itA itB = 0 := by
  show (itA.pos.y + itA.radius) - (itB.pos.y + itB.radius) = 0
  simp [itA, itB]

theorem discrim_AB : discrim itA itB = 6400 := by
  unfold discrim quadA quadB quadC
  rw [interDx_AB, interDy_AB, interFx_AB, interFy_AB]
  show _ - 4 * _ * (_ - (itA.radius + itB.radius) ^ 2) = 6400
  simp [itA, itB]
  norm_num

theorem quadA_AB : quadA itA itB = 400 := by
  unfold quadA
  rw [interDx_AB, interDy_AB]
  norm_num

theorem quadB_AB : quadB itA itB = -400 := by
  unfold quadB
  rw [interDx_AB, interDy_AB, interFx_AB, interFy_AB]
  norm_num

theorem rootT1_AB : rootT1 itA itB = 3/5 := by
  unfold rootT1
  rw [discrim_AB, quadA_AB, quadB_AB,
    show (6400:ℝ) = 80 ^ 2 by norm_num, Real.sqrt_sq (by norm_num : (0:ℝ) ≤ 80)]
  norm_num

theorem rootT2_AB : rootT2 itA itB = 2/5 := by
  unfold rootT2
  rw [discrim_AB, quadA_AB, quadB_AB,
    show (6400:ℝ) = 80 ^ 2 by norm_num, Real.sqrt_sq (by norm_num : (0:ℝ) ≤ 80)]
  norm_num

theorem gdi_AB : getDistanceToIntersection itA itB = 8 := by
  unfold getDistanceToIntersection
  rw [discrim_AB, rootT1_AB, rootT2_AB, step_itA]
  norm_num

/-- C1: `getDistanceToIntersection` returns -1 when the discriminant of A's
relative path against the circle inflated to the combined radii is ≤ 0, or
when all roots lie outside the normalized travel interval [0,1] of this step;
and when two roots are in range it picks the smaller non-negative root (first
contact) and returns that root times A's step distance. -/
theorem C1_intersection_root_selection (A B : Item) :
    (discrim A B ≤ 0 → getDistanceToIntersection A B = -1) ∧
    ((rootT1 A B < 0 ∨ rootT1 A B > 1) → (rootT2 A B < 0 ∨ rootT2 A B > 1) →
      getDistanceToIntersection A B = -1) ∧
    (0 < discrim A B → 0 ≤ rootT1 A B → rootT1 A B ≤ 1 → 0 ≤ rootT2 A B → rootT2 A B ≤ 1 →
      0 ≤ min (rootT1 A B) (rootT2 A B) ∧
      getDistanceToIntersection A B =
        min (rootT1 A B) (rootT2 A B) * getStepDistance A) := by
  refine ⟨fun hd => ?_, fun h1 h2 => ?_, fun hd h1a h1b h2a h2b => ?_⟩
  · unfold getDistanceToIntersection; rw [if_pos hd]
  · unfold getDistanceToIntersection
    by_cases hd : discrim A B ≤ 0
    · rw [if_pos hd]
    · rw [if_neg hd, if_pos ⟨h1, h2⟩]
  · have hmin : min (rootT1 A B) (rootT2 A B) = rootT2 A B :=
      min_eq_right (rootT2_le_rootT1 A B hd)
    refine ⟨by rw [hmin]; exact h2a, ?_⟩
    unfold getDistanceToIntersection
    have hnot : ¬((rootT1 A B < 0 ∨ rootT1 A B > 1) ∧ (rootT2 A B < 0 ∨ rootT2 A B > 1)) := by
      intro hc
      rcases hc.1 with hneg | hbig
      · linarith
      · linarith
    rw [if_neg (by linarith), if_neg hnot,
      if_neg (fun hc => absurd hc.1 (not_lt.mpr (rootT2_le_rootT1 A B hd))), hmin]

/-- Witness for C1 at the concrete pair: two roots 3/5 and 2/5 in range, the
returned distance is the smaller root times the step distance 20. -/
theorem C1_intersection_root_selection_witness :
    0 < discrim itA itB ∧
    getDistanceToIntersection itA itB =
      min (rootT1 itA itB) (rootT2 itA itB) * getStepDistance itA := by
  refine ⟨by rw [discrim_AB]; norm_num, ?_⟩
  exact ((C1_intersection_root_selection itA itB).2.2
    (by rw [discrim_AB]; norm_num)
    (by rw [rootT1_AB]; norm_num) (by rw [rootT1_AB]; norm_num)
    (by rw [rootT2_AB]; norm_num) (by rw [rootT2_AB]; norm_num)).2

/-- C10: a positive `getDistanceToIntersection(A, B)` is at most A's step
distance (the chosen parametric root lies in `(0, 1]`), so `updateForCollision`
multiplies A's `unused` by a factor in `(0, 1]`. -/
theorem C10_contact_distance_within_step (A B : Item)
    (hsp : 0 ≤ A.speed) (hun : 0 ≤ A.unused)
    (h : 0 < getDistanceToIntersection A B) :
    getDistanceToIntersection A B ≤ getStepDistance A ∧
    0 < getDistanceToIntersection A B / getStepDistance A ∧
    getDistanceToIntersection A B / getStepDistance A ≤ 1 ∧
    (updateForCollision A B (getDistanceToIntersection A B)).1.unused =
      A.unused * (getDistanceToIntersection A B / getStepDistance A) := by
  have hstep := getStepDistance_nonneg A hsp hun
  obtain ⟨hd, ht2, ht2le, hsteppos, heq⟩ := gdi_pos_elim A B hstep h
  refine ⟨?_, div_pos h hsteppos, ?_, rfl⟩
  · rw [heq]
    nlinarith
  · rw [heq, mul_div_assoc, div_self (ne_of_gt hsteppos), mul_one]
    exact ht2le

/-- Witness for C10 at the concrete pair: contact at distance 8 of a step of
20, a factor of 2/5. -/
theorem C10_contact_distance_within_step_witness :
    0 < getDistanceToIntersection itA itB ∧
    getDistanceToIntersection itA itB ≤ getStepDistance itA := by
  refine ⟨by rw [gdi_AB]; norm_num, ?_⟩
  exact (C10_contact_distance_within_step itA itB
    (by norm_num [itA]) (by norm_num [itA])
    (by rw [gdi_AB]; norm_num)).1

/-! ### distanceToTravel: closed form versus the iterative simulation -/

theorem stopSpeed_pos : 0 < stopSpeed := by norm_num [stopSpeed]

/-- The closed form of the source evaluates exactly: the `x` solving
`friction^x = stopSpeed/speed` collapses `friction^(x+1)` to
`friction * stopSpeed / speed`. -/
theorem distanceToTravel_closed (speed f : ℝ) (hs : 0 < speed) (hf : 0 < f) (hf1 : f < 1) :
    distanceToTravel speed f = (speed - f * stopSpeed) / (1 - f) := by
  unfold distanceToTravel
  rw [if_neg (ne_of_gt hs)]
  have hlf : Real.log f ≠ 0 := ne_of_lt (Real.log_neg hf hf1)
  have hquot : 0 < stopSpeed / speed := div_pos stopSpeed_pos hs
  have hx : f ^ (Real.log (stopSpeed / speed) / Real.log f + 1) = stopSpeed / speed * f := by
    rw [Real.rpow_add hf, Real.rpow_one]
    congr 1
    rw [Real.rpow_def_of_pos hf, mul_comm, div_mul_cancel₀ _ hlf, Real.exp_log hquot]
  rw [hx]
  have h1f : (1:ℝ) - f ≠ 0 := by intro hc; linarith
  field_simp
  ring

theorem simSteps_exists (speed f : ℝ) (hs : 0 < speed) (hf1 : f < 1) :
    ∃ n : ℕ, speed * f ^ n < stopSpeed := by
  obtain ⟨n, hn⟩ := exists_pow_lt_of_lt_one (div_pos stopSpeed_pos hs) hf1
  exact ⟨n, by rw [mul_comm]; exact (lt_div_iff hs).mp hn⟩

theorem simSteps_spec (speed f : ℝ) (h : ∃ n : ℕ, speed * f ^ n < stopSpeed) :
    speed * f ^ simSteps speed f < stopSpeed := by
  unfold simSteps
  split
  next h2 => exact Nat.find_spec h2
  next h2 => exact absurd h h2

theorem simSteps_min (speed f : ℝ) (m : ℕ) (hm : m < simSteps speed f) :
    stopSpeed ≤ speed * f ^ m := by
  unfold simSteps at hm
  split at hm
  next h2 => exact not_lt.mp (Nat.find_min h2 hm)
  next h2 => exact absurd hm (by omega)

/-- C5 counterexample support: at speed 1, friction 1/2 the loop runs 7 steps
(the 7 summands 1, 1/2, ..., 1/64 are all at least stopSpeed = 1/100, and
1/128 is below it). -/
theorem simSteps_one_half : simSteps 1 (1/2) = 7 := by
  unfold simSteps
  split
  next h2 =>
    rw [Nat.find_eq_iff]
    constructor
    · norm_num [stopSpeed]
    · intro m hm
      interval_cases m <;> norm_num [stopSpeed]
  next h2 => exact absurd ⟨7, by norm_num [stopSpeed]⟩ h2

theorem iterativeDistance_one_half : iterativeDistance 1 (1/2) = 127/64 := by
  unfold iterativeDistance
  rw [simSteps_one_half]
  norm_num [Finset.sum_range_succ]

theorem distanceToTravel_one_half : distanceToTravel 1 (1/2) = 199/100 := by
  rw [distanceToTravel_closed 1 (1/2) (by norm_num) (by norm_num) (by norm_num)]
  norm_num [stopSpeed]

/-- C5 counterexample: the claimed 1e-6 relative-error bound between the
closed form and the iterative simulation fails already at speed 1,
friction 1/2 (error 9/1600 against a bound of about 2e-6). -/
theorem C5_relative_error_counterexample :
    ¬ |distanceToTravel 1 (1/2) - iterativeDistance 1 (1/2)| ≤
        1/1000000 * iterativeDistance 1 (1/2) := by
  rw [distanceToTravel_one_half, iterativeDistance_one_half,
    show (199:ℝ)/100 - 127/64 = 9/1600 by norm_num,
    abs_of_pos (by norm_num : (0:ℝ) < 9/1600)]
  norm_num

/-- C5 amended: `distanceToTravel` returns 0 at speed 0, and for
`friction ∈ (0,1)` and `speed ≥ stopSpeed` the closed form overestimates the
iterative simulation (apply `speed := speed * friction` until
`speed < stopSpeed`, summing `speed` each step) by less than `stopSpeed` in
absolute terms; the claimed 1e-6 relative bound does not hold. -/
theorem C5_distanceToTravel_vs_simulation (speed f : ℝ)
    (hf : 0 < f) (hf1 : f < 1) (hs : stopSpeed ≤ speed) :
    distanceToTravel 0 f = 0 ∧
    iterativeDistance speed f ≤ distanceToTravel speed f ∧
    distanceToTravel speed f - iterativeDistance speed f < stopSpeed := by
  have hspos : 0 < speed := lt_of_lt_of_le stopSpeed_pos hs
  have hex := simSteps_exists speed f hspos hf1
  have hlt := simSteps_spec speed f hex
  have hN1 : 1 ≤ simSteps speed f := by
    rcases Nat.eq_zero_or_pos (simSteps speed f) with h0 | hpos
    · rw [h0, pow_zero, mul_one] at hlt
      linarith
    · exact hpos
  have hge : stopSpeed ≤ speed * f ^ (simSteps speed f - 1) :=
    simSteps_min speed f _ (by omega)
  have h1f : (0:ℝ) < 1 - f := by linarith
  have hfN : f ^ simSteps speed f = f ^ (simSteps speed f - 1) * f := by
    rw [← pow_succ]
    congr 1
    omega
  have hnum_lo : f * stopSpeed ≤ speed * f ^ simSteps speed f :=
    calc f * stopSpeed ≤ f * (speed * f ^ (simSteps speed f - 1)) :=
          mul_le_mul_of_nonneg_left hge (le_of_lt hf)
      _ = speed * f ^ simSteps speed f := by rw [hfN]; ring
  have hiter : iterativeDistance speed f = speed * (1 - f ^ simSteps speed f) / (1 - f) := by
    unfold iterativeDistance
    rw [← Finset.mul_sum, geom_sum_eq (ne_of_lt hf1), ← mul_div_assoc,
      div_eq_div_iff (by intro hc; linarith : f - 1 ≠ 0) (ne_of_gt h1f)]
    ring
  have hclosed := distanceToTravel_closed speed f hspos hf hf1
  refine ⟨by unfold distanceToTravel; rw [if_pos rfl], ?_, ?_⟩
  · rw [hiter, hclosed]
    apply div_le_div_of_le_of_nonneg _ (le_of_lt h1f)
    nlinarith
  · rw [hiter, hclosed, div_sub_div_same, div_lt_iff h1f]
    nlinarith

/-- Witness for the amended C5 at speed 1, friction 1/2. -/
theorem C5_distanceToTravel_vs_simulation_witness :
    (0:ℝ) < 1/2 ∧ (1/2:ℝ) < 1 ∧ stopSpeed ≤ 1 ∧
    (iterativeDistance 1 (1/2) ≤ distanceToTravel 1 (1/2) ∧
      distanceToTravel 1 (1/2) - iterativeDistance 1 (1/2) < stopSpeed) := by
  refine ⟨by norm_num, by norm_num, by norm_num [stopSpeed], ?_⟩
  exact (C5_distanceToTravel_vs_simulation 1 (1/2) (by norm_num) (by norm_num)
    (by norm_num [stopSpeed])).2

/-! ### The curved trajectory at curve 0 -/

/-- C7: for `curve = 0` (`shotCurve` holding the numeric value 0) the
curved-trajectory computation reduces to straight-line motion: the lateral
offset `realY` is 0 for every progress value, and the next curved position
lies on the straight line from the shot origin along `shotCourse`. -/
theorem C7_zero_curve_is_straight (item : Item) (hc : item.shotCurve = some 0)
    (ht : 0 ≤ item.shotTraveled + item.speed) :
    realY item = 0 ∧
    getNextCurvePos item =
      ⟨item.shotOriginX + (item.shotTraveled + item.speed) * Real.cos item.shotCourse,
       item.shotOriginY + (item.shotTraveled + item.speed) * Real.sin item.shotCourse⟩ := by
  have hcv : curveValue item = 0 := by rw [curveValue, hc]; rfl
  have hy : curveY item = 0 := by rw [curveY, hcv]; ring
  have halpha : curveAlpha item = 0 := by
    rw [curveAlpha, hy, zero_div, Real.arctan_zero]
  have hry : realY item = 0 := by rw [realY, hy]; ring
  have hcsd : curveStepDistance item = item.shotTraveled + item.speed := by
    rw [curveStepDistance, hry, abcSquare_eq_sqrt,
      show (item.shotTraveled + item.speed) ^ 2 + (0:ℝ) ^ 2 =
        (item.shotTraveled + item.speed) ^ 2 by ring,
      Real.sqrt_sq ht]
  refine ⟨hry, ?_⟩
  unfold getNextCurvePos
  rw [halpha, hcsd, sub_zero]
  congr 1 <;> ring

/-- Concrete curved item with `curve = 0` for the C7 witness. -/
def itC : Item :=
  { pos := ⟨0, 0⟩, radius := 1, power := 1, speed := 1, course := 0,
    shotCourse := 0, shotCurve := some 0, shotOriginX := 0, shotOriginY := 0,
    shotDistance := 10, shotTraveled := 2, unused := 1, friction := 9/10,
    disabled := false }

/-- Witness for C7 at a concrete mid-shot state. -/
theorem C7_zero_curve_is_straight_witness :
    itC.shotCurve = some 0 ∧ 0 ≤ itC.shotTraveled + itC.speed ∧ realY itC = 0 := by
  refine ⟨rfl, by norm_num [itC], ?_⟩
  exact (C7_zero_curve_is_straight itC rfl (by norm_num [itC])).1

/-! ### Collision speed transfer (updateForCollision) -/

/-- Evaluation helper: `abcSquare` at a perfect square. -/
theorem abcSquare_eval (a b c : ℝ) (h : a ^ 2 + b ^ 2 = c ^ 2) (hc : 0 ≤ c) :
    abcSquare a b = c := by
  rw [abcSquare_eq_sqrt, h, Real.sqrt_sq hc]

/-- A moving circle of radius 2 heading along the positive x axis... -/
def itA4 : Item :=
  { pos := ⟨-2, -2⟩, radius := 2, power := 1, speed := 2, course := 0,
    shotCourse := 0, shotCurve := none, shotOriginX := 0, shotOriginY := 0,
    shotDistance := 0, shotTraveled := 0, unused := 1, friction := 9/10,
    disabled := false }

/-- ... and a resting circle of a smaller radius 1 with center `(5, 0)`;
contact happens after A travels 2. -/
def itB4 : Item :=
  { pos := ⟨4, -1⟩, radius := 1, power := 1, speed := 0, course := 0,
    shotCourse := 0, shotCurve := none, shotOriginX := 0, shotOriginY := 0,
    shotDistance := 0, shotTraveled := 0, unused := 1, friction := 9/10,
    disabled := false }

theorem step_itA4 : getStepDistance itA4 = 2 := by
  simp [getStepDistance, itA4]

theorem step_itB4 : getStepDistance itB4 = 0 := by
  simp [getStepDistance, itB4]

theorem quadA_B4A4 : quadA itB4 itA4 = 4 := by
  unfold quadA interDx interDy
  rw [step_itA4, step_itB4]
  simp [itA4, itB4]
  norm_num

theorem quadB_B4A4 : quadB itB4 itA4 = -20 := by
  unfold quadB interDx interDy interFx interFy
  rw [step_itA4, step_itB4]
  simp [itA4, itB4]
  norm_num

theorem discrim_B4A4 : discrim itB4 itA4 = 144 := by
  unfold discrim quadC interFx interFy
  rw [quadA_B4A4, quadB_B4A4]
  simp [itA4, itB4]
  norm_num

theorem rootT1_B4A4 : rootT1 itB4 itA4 = 4 := by
  unfold rootT1
  rw [discrim_B4A4, quadA_B4A4, quadB_B4A4,
    show (144:ℝ) = 12 ^ 2 by norm_num, Real.sqrt_sq (by norm_num : (0:ℝ) ≤ 12)]
  norm_num

theorem rootT2_B4A4 : rootT2 itB4 itA4 = 1 := by
  unfold rootT2
  rw [discrim_B4A4, quadA_B4A4, quadB_B4A4,
    show (144:ℝ) = 12 ^ 2 by norm_num, Real.sqrt_sq (by norm_num : (0:ℝ) ≤ 12)]
  norm_num

/-- B's own contact distance is 0: B is at rest (its step distance is 0). -/
theorem gdi_B4A4 : getDistanceToIntersection itB4 itA4 = 0 := by
  unfold getDistanceToIntersection
  rw [discrim_B4A4, rootT1_B4A4, rootT2_B4A4, step_itB4]
  norm_num

theorem movedB_A4B4 : collisionMovedB itA4 itB4 =
    { itB4 with shotCurve := none, pos := ⟨4, -1⟩ } := by
  unfold collisionMovedB
  rw [gdi_B4A4]
  simp [itB4]

theorem movedA_A4B4 : collisionMovedA itA4 itB4 2 =
    { itA4 with shotCurve := none, pos := ⟨0, -2⟩ } := by
  unfold collisionMovedA
  rw [movedB_A4B4]
  have hA1 : ({ itA4 with
      shotCurve := none,
      pos := ⟨itA4.pos.x + Real.cos itA4.course * 2,
             itA4.pos.y + Real.sin itA4.course * 2⟩ } : Item) =
      { itA4 with shotCurve := none, pos := ⟨0, -2⟩ } := by
    simp [itA4]
  rw [hA1]
  rw [if_neg ?hcond]
  case hcond =>
    rw [show distanceBetween ({ itA4 with shotCurve := none, pos := ⟨0, -2⟩ } : Item)
        ({ itB4 with shotCurve := none, pos := ⟨4, -1⟩ } : Item) = 3 from ?_]
    · show ¬(3 < itA4.radius + itB4.radius)
      simp [itA4, itB4]
      norm_num
    · unfold distanceBetween
      apply abcSquare_eval _ _ 3 _ (by norm_num)
      simp [itA4, itB4]
      norm_num

theorem abCourse_A4B4 : collisionAbCourse itA4 itB4 2 = Real.arctan (1/4) := by
  unfold collisionAbCourse
  rw [movedA_A4B4, movedB_A4B4]
  show getCourse 0 (-2) 4 (-1) = Real.arctan (1/4)
  unfold getCourse atan2
  rw [if_pos (by norm_num : (0:ℝ) < 4 - 0)]
  norm_num

theorem centerAbCourse_A4B4 : centerAbCourse itA4 itB4 2 = 0 := by
  unfold centerAbCourse
  rw [movedA_A4B4, movedB_A4B4]
  show getCourse (0 + itA4.radius) (-2 + itA4.radius) (4 + itB4.radius) (-1 + itB4.radius) = 0
  simp only [itA4, itB4]
  unfold getCourse atan2
  rw [if_pos (by norm_num : (0:ℝ) < (4 + 1) - (0 + 2))]
  norm_num

/-- C4 counterexample: with radii 2 and 1, the source computes `abCourse` from
the top-left corners, not the centers; A's post-collision speed is
`2·sin(arctan(1/4)) ≠ 0`, while the claimed center-line formula yields
`2·|angleBetween(0, 0)| = 0`. -/
theorem C4_center_bearing_counterexample :
    (updateForCollision itA4 itB4 2).1.speed ≠
      itA4.speed * |angleBetween itA4.course (centerAbCourse itA4 itB4 2)| := by
  have hL : (updateForCollision itA4 itB4 2).1.speed =
      itA4.speed * |angleBetween itA4.course (collisionAbCourse itA4 itB4 2)| := rfl
  rw [hL, abCourse_A4B4, centerAbCourse_A4B4]
  have hsin : angleBetween itA4.course (Real.arctan (1/4)) =
      Real.sin (Real.arctan (1/4)) := by
    unfold angleBetween
    rw [show (itA4.course - Real.arctan (1/4)) + Real.pi / 2 =
        Real.pi / 2 - Real.arctan (1/4) by simp [itA4]; ring]
    exact Real.cos_pi_div_two_sub _
  have hzero : angleBetween itA4.course 0 = 0 := by
    unfold angleBetween
    rw [show (itA4.course - 0) + Real.pi / 2 = Real.pi / 2 by simp [itA4]]
    exact Real.cos_pi_div_two
  rw [hsin, hzero]
  have hpos : 0 < Real.sin (Real.arctan (1/4)) := by
    rw [Real.sin_arctan]
    positivity
  intro hc
  rw [abs_of_pos hpos, abs_zero, mul_zero] at hc
  have : itA4.speed = 2 := rfl
  nlinarith

/-- C4 amended: in `updateForCollision` with
`relAngle = angleBetween(A.course_before, abCourse)` where `abCourse` is the
bearing from A's moved position to B's moved position measured between the
top-left corners (which equals the center-line bearing exactly when the radii
are equal), the post-collision speeds satisfy
`A.speed_after = A.speed_before * |relAngle|` and
`B.speed_after = (A.speed_before * A.power / B.power) * (1 - |relAngle|)`;
in particular for `relAngle = ±1` between two equal-power items,
`A.speed_after = A.speed_before` and `B.speed_after = 0`. -/
theorem C4_speed_transfer (A B : Item) (dA : ℝ) :
    (updateForCollision A B dA).1.speed =
      A.speed * |angleBetween A.course (collisionAbCourse A B dA)| ∧
    (updateForCollision A B dA).2.speed =
      A.speed * A.power / B.power *
        (1 - |angleBetween A.course (collisionAbCourse A B dA)|) ∧
    (A.radius = B.radius → collisionAbCourse A B dA = centerAbCourse A B dA) ∧
    (|angleBetween A.course (collisionAbCourse A B dA)| = 1 → A.power = B.power →
      (updateForCollision A B dA).1.speed = A.speed ∧
        (updateForCollision A B dA).2.speed = 0) := by
  refine ⟨rfl, rfl, fun hr => ?_, fun h1 _hp => ⟨?_, ?_⟩⟩
  · unfold collisionAbCourse centerAbCourse getCourse
    rw [hr]
    congr 1 <;> ring
  · show A.speed * |angleBetween A.course (collisionAbCourse A B dA)| = A.speed
    rw [h1, mul_one]
  · show A.speed * A.power / B.power *
      (1 - |angleBetween A.course (collisionAbCourse A B dA)|) = 0
    rw [h1, sub_self, mul_zero]

/-- An attacker at course π/2 whose heading is perpendicular to the (x-axis
aligned) contact line, giving `relAngle = -1`: the head-on case of the claim. -/
def itA5 : Item :=
  { pos := ⟨-1, -1⟩, radius := 1, power := 3, speed := 2, course := Real.pi / 2,
    shotCourse := 0, shotCurve := none, shotOriginX := 0, shotOriginY := 0,
    shotDistance := 0, shotTraveled := 0, unused := 1, friction := 9/10,
    disabled := false }

/-- The matching equal-power, equal-radius resting target. -/
def itB5 : Item :=
  { pos := ⟨4, 0⟩, radius := 1, power := 3, speed := 0, course := 0,
    shotCourse := 0, shotCurve := none, shotOriginX := 0, shotOriginY := 0,
    shotDistance := 0, shotTraveled := 0, unused := 1, friction := 9/10,
    disabled := false }

theorem step_itA5 : getStepDistance itA5 = 2 := by
  simp [getStepDistance, itA5]

theorem step_itB5 : getStepDistance itB5 = 0 := by
  simp [getStepDistance, itB5]

/-- The reversed intersection test finds no contact (negative discriminant):
`B`'s own contact distance is the no-collision marker -1. -/
theorem gdi_B5A5 : getDistanceToIntersection itB5 itA5 = -1 := by
  have hd : discrim itB5 itA5 = -336 := by
    unfold discrim quadA quadB quadC interDx interDy interFx interFy
    rw [step_itA5, step_itB5]
    simp [itA5, itB5]
    norm_num
  unfold getDistanceToIntersection
  rw [if_pos (by rw [hd]; norm_num)]

theorem movedB_A5B5 : collisionMovedB itA5 itB5 =
    { itB5 with shotCurve := none, pos := ⟨3, 0⟩ } := by
  unfold collisionMovedB
  rw [gdi_B5A5]
  simp [itB5]
  norm_num

theorem movedA_A5B5 : collisionMovedA itA5 itB5 1 =
    { itA5 with shotCurve := none, pos := ⟨-1, 0⟩ } := by
  unfold collisionMovedA
  rw [movedB_A5B5]
  have hA1 : ({ itA5 with
      shotCurve := none,
      pos := ⟨itA5.pos.x + Real.cos itA5.course * 1,
             itA5.pos.y + Real.sin itA5.course * 1⟩ } : Item) =
      { itA5 with shotCurve := none, pos := ⟨-1, 0⟩ } := by
    simp [itA5]
  rw [hA1]
  rw [if_neg ?hcond5]
  case hcond5 =>
    rw [show distanceBetween ({ itA5 with shotCurve := none, pos := ⟨-1, 0⟩ } : Item)
        ({ itB5 with shotCurve := none, pos := ⟨3, 0⟩ } : Item) = 4 from ?_]
    · show ¬(4 < itA5.radius + itB5.radius)
      simp [itA5, itB5]
      norm_num
    · unfold distanceBetween
      apply abcSquare_eval _ _ 4 _ (by norm_num)
      simp [itA5, itB5]
      norm_num

theorem abCourse_A5B5 : collisionAbCourse itA5 itB5 1 = 0 := by
  unfold collisionAbCourse
  rw [movedA_A5B5, movedB_A5B5]
  show getCourse (-1) 0 3 0 = 0
  unfold getCourse atan2
  rw [if_pos (by norm_num : (0:ℝ) < 3 - (-1))]
  norm_num

theorem relAngle_A5B5 : |angleBetween itA5.course (collisionAbCourse itA5 itB5 1)| = 1 := by
  rw [abCourse_A5B5]
  unfold angleBetween
  rw [show (itA5.course - 0) + Real.pi / 2 = Real.pi by simp [itA5]]
  rw [Real.cos_pi]
  norm_num

/-- Witness for the amended C4: a perpendicular (`relAngle = -1`) equal-power,
equal-radius collision where A keeps its whole speed and B gets none, and the
corner bearing coincides with the center bearing. -/
theorem C4_speed_transfer_witness :
    itA5.radius = itB5.radius ∧
    |angleBetween itA5.course (collisionAbCourse itA5 itB5 1)| = 1 ∧
    itA5.power = itB5.power ∧
    collisionAbCourse itA5 itB5 1 = centerAbCourse itA5 itB5 1 ∧
    (updateForCollision itA5 itB5 1).1.speed = itA5.speed ∧
    (updateForCollision itA5 itB5 1).2.speed = 0 := by
  have h := C4_speed_transfer itA5 itB5 1
  have hspec := h.2.2.2 relAngle_A5B5 rfl
  exact ⟨rfl, relAngle_A5B5, rfl, h.2.2.1 rfl, hspec.1, hspec.2⟩

/-! ### World-level helpers -/

theorem getItem_mem (w : World) (k : ℕ) (h : k < size w) : getItem w k ∈ w := by
  unfold getItem
  rw [List.getD_eq_getElem?_getD, List.getElem?_eq_getElem h]
  exact List.getElem_mem h

theorem getItem_default (w : World) (k : ℕ) (h : ¬ k < size w) : getItem w k = default := by
  unfold size at h
  unfold getItem
  rw [List.getD_eq_getElem?_getD, List.getElem?_eq_none (by omega : List.length w ≤ k)]
  rfl

theorem getItem_speed_zero (w : World) (h : ∀ it ∈ w, it.speed = 0) (k : ℕ) :
    (getItem w k).speed = 0 := by
  by_cases hk : k < size w
  · exact h _ (getItem_mem w k hk)
  · rw [getItem_default w k hk]
    rfl

/-! ### A tick of an all-stationary world (used by C6 and by the C3
counterexample) -/

theorem collisionScan_stationary (w : World) (h : ∀ k, (getItem w k).speed = 0) :
    ∀ l : List ℕ, collisionScan w l = (w, false) := by
  intro l
  induction l with
  | nil => rfl
  | cons k rest ih =>
    unfold collisionScan
    rw [if_neg (fun hc => hc.1 (h k))]
    exact ih

theorem collisionStep_stationary (w : World) (h : ∀ k, (getItem w k).speed = 0) :
    collisionStep w = (w, false) := by
  unfold collisionStep
  exact collisionScan_stationary w h _

theorem runPasses_no_collision (n : ℕ) (w : World) (h : collisionStep w = (w, false)) :
    runPasses (n + 1) w = (w, 1) := by
  unfold runPasses
  rw [h]
  rfl

theorem applyItem_stationary (it : Item) (h : it.speed = 0) : applyItem it = it := by
  unfold applyItem
  rw [if_neg (fun hc => hc.1 h)]

theorem resetItems_speed_zero (w : World) (h : ∀ it ∈ w, it.speed = 0) :
    ∀ it ∈ resetItems w, it.speed = 0 := by
  intro it hit
  obtain ⟨a, ha, rfl⟩ := List.mem_map.mp hit
  exact h a ha

/-- Shared helper: a tick over a world of stationary items leaves everything
but the `unused` budget untouched and reports nothing moving. -/
theorem tick_stationary (w : World) (h : ∀ it ∈ w, it.speed = 0) :
    tick w = (resetItems w, false) := by
  have hr : ∀ it ∈ resetItems w, it.speed = 0 := resetItems_speed_zero w h
  have hk : ∀ k, (getItem (resetItems w) k).speed = 0 := getItem_speed_zero _ hr
  have hcs := collisionStep_stationary (resetItems w) hk
  unfold tick
  rw [show (10:ℕ) = 9 + 1 from rfl, runPasses_no_collision 9 _ hcs]
  unfold applyPhysics
  have hmap : List.map applyItem (resetItems w) = resetItems w := by
    have := List.map_congr_left (fun it hit => applyItem_stationary it (hr it hit))
    simpa using this
  rw [hmap]
  have hany : List.any (resetItems w) (fun it => decide (it.speed ≠ 0)) = false := by
    rw [List.any_eq_false]
    intro it hit
    simp only [decide_eq_true_eq]
    intro hc
    exact hc (hr it hit)
  rw [hany]

/-- C6: a tick on a world in which every item's speed is 0 returns `false` and
leaves every item's position and course unchanged. -/
theorem C6_stationary_tick_is_noop (w : World) (h : ∀ it ∈ w, it.speed = 0) :
    (tick w).2 = false ∧
    List.map (fun it : Item => (it.pos.x, it.pos.y, it.course)) (tick w).1 =
      List.map (fun it : Item => (it.pos.x, it.pos.y, it.course)) w := by
  rw [tick_stationary w h]
  refine ⟨rfl, ?_⟩
  unfold resetItems
  rw [List.map_map]
  rfl

/-- Stationary overlapping circle for the C6 witness and C3 counterexample. -/
def itP : Item :=
  { pos := ⟨0, 0⟩, radius := 1, power := 1, speed := 0, course := 0,
    shotCourse := 0, shotCurve := none, shotOriginX := 0, shotOriginY := 0,
    shotDistance := 0, shotTraveled := 0, unused := 1, friction := 9/10,
    disabled := false }

/-- Its half-overlapping stationary partner (center distance 1/2, radii 1+1). -/
def itQ : Item :=
  { pos := ⟨1/2, 0⟩, radius := 1, power := 1, speed := 0, course := 0,
    shotCourse := 0, shotCurve := none, shotOriginX := 0, shotOriginY := 0,
    shotDistance := 0, shotTraveled := 0, unused := 1, friction := 9/10,
    disabled := false }

/-- Witness for C6 on a concrete two-item world. -/
theorem C6_stationary_tick_is_noop_witness :
    (∀ it ∈ ([itP, itQ] : World), it.speed = 0) ∧
    (tick [itP, itQ]).2 = false := by
  have h : ∀ it ∈ ([itP, itQ] : World), it.speed = 0 := by
    intro it hit
    fin_cases hit <;> rfl
  exact ⟨h, (C6_stationary_tick_is_noop [itP, itQ] h).1⟩

/-- C3 counterexample: two non-disabled stationary items that start a tick
overlapping still overlap after `tick()` returns; `tick` itself never invokes
the overlap diagnostic. -/
theorem C3_overlap_persists_after_tick :
    (getItem (tick [itP, itQ]).1 0).disabled = false ∧
    (getItem (tick [itP, itQ]).1 1).disabled = false ∧
    distanceBetween (getItem (tick [itP, itQ]).1 0) (getItem (tick [itP, itQ]).1 1) <
      (getItem (tick [itP, itQ]).1 0).radius + (getItem (tick [itP, itQ]).1 1).radius := by
  have h : ∀ it ∈ ([itP, itQ] : World), it.speed = 0 := by
    intro it hit
    fin_cases hit <;> rfl
  have ht := tick_stationary [itP, itQ] h
  rw [ht]
  have h0 : getItem (resetItems [itP, itQ]) 0 = { itP with unused := 1 } := rfl
  have h1 : getItem (resetItems [itP, itQ]) 1 = { itQ with unused := 1 } := rfl
  rw [h0, h1]
  refine ⟨rfl, rfl, ?_⟩
  show distanceBetween { itP with unused := 1 } { itQ with unused := 1 } <
    itP.radius + itQ.radius
  have hd : distanceBetween ({ itP with unused := 1 } : Item)
      ({ itQ with unused := 1 } : Item) = 1/2 := by
    unfold distanceBetween
    apply abcSquare_eval _ _ (1/2) _ (by norm_num)
    simp [itP, itQ]
  rw [hd]
  simp [itP, itQ]
  norm_num

theorem getItem_setItem_self (w : World) (i : ℕ) (a : Item) (h : i < size w) :
    getItem (setItem w i a) i = a := by
  unfold size at h
  unfold getItem setItem
  rw [List.getD_eq_getElem?_getD, List.getElem?_set_self h]
  rfl

theorem getItem_setItem_ne (w : World) (i k : ℕ) (a : Item) (h : i ≠ k) :
    getItem (setItem w i a) k = getItem w k := by
  unfold getItem setItem
  rw [List.getD_eq_getElem?_getD, List.getElem?_set_ne h, ← List.getD_eq_getElem?_getD]

/-- What a successful `findOverlap` means: a pair `i < j` in range, the
earlier item not disabled, with top-left corners closer than the combined
radii (exactly the source's test). -/
theorem findOverlap_some (w : World) (i j : ℕ) (h : findOverlap w = some (i, j)) :
    i < j ∧ i < size w ∧ j < size w ∧ (getItem w i).disabled = false ∧
    abcSquare ((getItem w i).pos.x - (getItem w j).pos.x)
        ((getItem w i).pos.y - (getItem w j).pos.y) <
      (getItem w i).radius + (getItem w j).radius := by
  unfold findOverlap at h
  obtain ⟨a, ha, hfa⟩ := List.exists_of_findSome?_eq_some h
  by_cases hd : (getItem w a).disabled
  · rw [if_pos hd] at hfa
    exact absurd hfa (by simp)
  · rw [if_neg hd] at hfa
    obtain ⟨b, hfind, heq⟩ := Option.map_eq_some'.mp hfa
    injection heq with h1 h2
    rw [h1] at ha hd
    rw [h1, h2] at hfind
    have hp := List.find?_some hfind
    rw [decide_eq_true_eq] at hp
    have hjr : j < size w := List.mem_range.mp (List.mem_of_find?_eq_some hfind)
    have hir : i < size w := List.mem_range.mp ha
    exact ⟨hp.1, hir, hjr, by simpa using hd, hp.2⟩

/-- C3 amended: `tick()` by itself does not re-establish separation (two
overlapping stationary items stay overlapping, see the counterexample); the
separate diagnostic `collisionCheck` — not invoked by `tick` — detects the
first overlapping pair in scan order, comparing top-left-corner distance
against the combined radii with only the earlier item's `disabled` flag
consulted, and nudges the pair's headings apart (A onto a tangent end, B onto
the A-to-B line) rather than silently ignoring the overlap. -/
theorem C3_overlap_diagnostic (w : World) (i j : ℕ) (h : findOverlap w = some (i, j)) :
    (collisionCheck w).2 = true ∧
    (getItem w i).disabled = false ∧
    abcSquare ((getItem w i).pos.x - (getItem w j).pos.x)
        ((getItem w i).pos.y - (getItem w j).pos.y) <
      (getItem w i).radius + (getItem w j).radius ∧
    (getItem (collisionCheck w).1 j).course =
      getCourse (getItem w i).pos.x (getItem w i).pos.y
        (getItem w j).pos.x (getItem w j).pos.y ∧
    (getItem (collisionCheck w).1 i).course =
      (if angleBetween (getItem w i).course
          (getCourse (getItem w i).pos.x (getItem w i).pos.y
            (getItem w j).pos.x (getItem w j).pos.y) > 0 then
        getCourse (getItem w i).pos.x (getItem w i).pos.y
          (getItem w j).pos.x (getItem w j).pos.y - Real.pi / 2
      else
        getCourse (getItem w i).pos.x (getItem w i).pos.y
          (getItem w j).pos.x (getItem w j).pos.y - Real.pi / 2 - Real.pi) := by
  obtain ⟨hij, hir, hjr, hdis, hdist⟩ := findOverlap_some w i j h
  set ab := getCourse (getItem w i).pos.x (getItem w i).pos.y
    (getItem w j).pos.x (getItem w j).pos.y with hab
  set Anew : Item := { getItem w i with
    course := if angleBetween (getItem w i).course ab > 0 then ab - Real.pi / 2
      else ab - Real.pi / 2 - Real.pi } with hA
  set Bnew : Item := { getItem w j with course := ab } with hB
  have hw : collisionCheck w = (setItem (setItem w i Anew) j Bnew, true) := by
    unfold collisionCheck
    rw [h]
  rw [hw]
  have hjlen : j < size (setItem w i Anew) := by
    unfold size setItem
    rw [List.length_set]
    exact hjr
  refine ⟨rfl, hdis, hdist, ?_, ?_⟩
  · rw [getItem_setItem_self _ j _ hjlen]
  · rw [getItem_setItem_ne _ j i _ (Nat.ne_of_gt hij),
      getItem_setItem_self w i _ hir]

/-- The concrete overlapping pair is found by the scan at indices (0, 1). -/
theorem findOverlap_PQ : findOverlap [itP, itQ] = some (0, 1) := by
  unfold findOverlap
  rw [show List.range (size [itP, itQ]) = [0, 1] from rfl]
  rw [List.findSome?_cons]
  have g0 : getItem [itP, itQ] 0 = itP := rfl
  rw [g0]
  rw [if_neg (by simp [itP] : ¬(itP.disabled = true))]
  set p : ℕ → Bool := (fun j => decide (0 < j ∧
      abcSquare (itP.pos.x - (getItem [itP, itQ] j).pos.x)
          (itP.pos.y - (getItem [itP, itQ] j).pos.y) <
        itP.radius + (getItem [itP, itQ] j).radius)) with hp
  have hp0 : p 0 = false := by rw [hp]; simp
  have hp1 : p 1 = true := by
    rw [hp]
    show decide (0 < 1 ∧
      abcSquare (itP.pos.x - (getItem [itP, itQ] 1).pos.x)
          (itP.pos.y - (getItem [itP, itQ] 1).pos.y) <
        itP.radius + (getItem [itP, itQ] 1).radius) = true
    rw [decide_eq_true_eq]
    refine ⟨by norm_num, ?_⟩
    have g1 : getItem [itP, itQ] 1 = itQ := rfl
    rw [g1]
    rw [show itP.pos.x - itQ.pos.x = -(1/2) by norm_num [itP, itQ],
        show itP.pos.y - itQ.pos.y = 0 by norm_num [itP, itQ],
        show itP.radius + itQ.radius = 2 by norm_num [itP, itQ],
        abcSquare_eval (-(1/2)) 0 (1/2) (by norm_num) (by norm_num)]
    norm_num
  have hfind : List.find? p [0, 1] = some 1 := by
    rw [List.find?_cons_of_neg _ (by simp [hp0]),
        List.find?_cons_of_pos _ hp1]
  rw [hfind]
  rfl

/-- Witness for the amended C3 at the concrete overlapping stationary pair. -/
theorem C3_overlap_diagnostic_witness :
    findOverlap [itP, itQ] = some (0, 1) ∧ (collisionCheck [itP, itQ]).2 = true :=
  ⟨findOverlap_PQ, (C3_overlap_diagnostic [itP, itQ] 0 1 findOverlap_PQ).1⟩

/-! ### Termination bounds of tick (C8) -/

theorem runPasses_count_le (n : ℕ) (w : World) : (runPasses n w).2 ≤ n := by
  induction n generalizing w with
  | zero => exact le_refl 0
  | succ n ih =>
    unfold runPasses
    dsimp only
    split
    · exact Nat.succ_le_succ (ih _)
    · exact Nat.succ_le_succ (Nat.zero_le n)

/-- At attempt 20 (`fuel = 0`) a found collision is resolved against the
current pair, occluder or not. -/
theorem updateIfColliding_fuel_zero (w : World) (i j : ℕ)
    (hd : 0 < getDistanceToIntersection (getItem w (pickA w i j))
      (getItem w (pickB w i j))) :
    updateIfColliding w i j 0 =
      (setItem (setItem w (pickA w i j)
          (updateForCollision (getItem w (pickA w i j)) (getItem w (pickB w i j))
            (getDistanceToIntersection (getItem w (pickA w i j))
              (getItem w (pickB w i j)))).1)
        (pickB w i j)
        (updateForCollision (getItem w (pickA w i j)) (getItem w (pickB w i j))
          (getDistanceToIntersection (getItem w (pickA w i j))
            (getItem w (pickB w i j)))).2,
       true) := by
  unfold updateIfColliding
  rw [if_pos hd, dif_neg (by simp)]

/-- C8: `tick()` always completes; its collision-pass loop executes at most 10
passes, and the occlusion lookahead of `updateIfColliding` is bounded: once the
attempt budget is exhausted a found collision is resolved against the current
pair anyway. -/
theorem C8_tick_always_bounded :
    (∀ w : World, tick w = applyPhysics (runPasses 10 (resetItems w)).1) ∧
    (∀ w : World, (runPasses 10 (resetItems w)).2 ≤ 10) ∧
    (∀ (w : World) (i j : ℕ),
      0 < getDistanceToIntersection (getItem w (pickA w i j))
        (getItem w (pickB w i j)) →
      updateIfColliding w i j 0 =
        (setItem (setItem w (pickA w i j)
            (updateForCollision (getItem w (pickA w i j)) (getItem w (pickB w i j))
              (getDistanceToIntersection (getItem w (pickA w i j))
                (getItem w (pickB w i j)))).1)
          (pickB w i j)
          (updateForCollision (getItem w (pickA w i j)) (getItem w (pickB w i j))
            (getDistanceToIntersection (getItem w (pickA w i j))
              (getItem w (pickB w i j)))).2,
         true)) :=
  ⟨fun _ => rfl, fun w => runPasses_count_le 10 (resetItems w),
    updateIfColliding_fuel_zero⟩

/-- Witness for C8 at the concrete pair: the attacker at index 0 is faster,
finds a contact at distance 8, and at attempt 20 resolves against it. -/
theorem pickA_AB : pickA [itA, itB] 0 1 = 0 := by
  unfold pickA
  rw [if_pos]
  show itA.speed ≥ itB.speed
  norm_num [itA, itB]

theorem pickB_AB : pickB [itA, itB] 0 1 = 1 := by
  unfold pickB
  rw [pickA_AB]
  rfl

theorem gdi_pick_AB : 0 < getDistanceToIntersection
    (getItem [itA, itB] (pickA [itA, itB] 0 1))
    (getItem [itA, itB] (pickB [itA, itB] 0 1)) := by
  rw [pickA_AB, pickB_AB]
  show 0 < getDistanceToIntersection itA itB
  rw [gdi_AB]
  norm_num

theorem C8_tick_always_bounded_witness :
    0 < getDistanceToIntersection (getItem [itA, itB] (pickA [itA, itB] 0 1))
      (getItem [itA, itB] (pickB [itA, itB] 0 1)) ∧
    (runPasses 10 (resetItems [itA, itB])).2 ≤ 10 ∧
    (updateIfColliding [itA, itB] 0 1 0).2 = true := by
  refine ⟨gdi_pick_AB, C8_tick_always_bounded.2.1 [itA, itB], ?_⟩
  rw [C8_tick_always_bounded.2.2 [itA, itB] 0 1 gdi_pick_AB]

/-! ### Sweep ordering (C9) -/

theorem orderByDistance_perm (w : World) (src : ℕ) :
    (orderByDistance w src).Perm (List.range (size w)) := by
  unfold orderByDistance
  exact List.mergeSort_perm _ _

theorem orderByDistance_sorted (w : World) (src : ℕ) :
    (orderByDistance w src).Sorted (fun a b =>
      distanceBetween (getItem w src) (getItem w a) ≤
        distanceBetween (getItem w src) (getItem w b)) := by
  unfold orderByDistance
  set cmp : ℕ → ℕ → Bool := fun a b =>
    decide (distanceBetween (getItem w src) (getItem w a) ≤
      distanceBetween (getItem w src) (getItem w b)) with hcmp
  have htrans : ∀ a b c : ℕ, cmp a b → cmp b c → cmp a c := by
    intro a b c h1 h2
    rw [hcmp] at h1 h2 ⊢
    simp only [decide_eq_true_eq] at h1 h2 ⊢
    exact le_trans h1 h2
  have htotal : ∀ a b : ℕ, cmp a b || cmp b a := by
    intro a b
    rw [hcmp]
    simp only [Bool.or_eq_true, decide_eq_true_eq]
    exact le_total _ _
  have hs := List.sorted_mergeSort htrans htotal (List.range (size w))
  refine hs.imp ?_
  intro a b hab
  rw [hcmp] at hab
  exact of_decide_eq_true hab

/-- A collision check that finds a positive contact distance reports `true`,
occluder or not. -/
theorem updateIfColliding_pos_true (w : World) (i j fuel : ℕ)
    (hd : 0 < getDistanceToIntersection (getItem w (pickA w i j))
      (getItem w (pickB w i j))) :
    (updateIfColliding w i j fuel).2 = true := by
  unfold updateIfColliding
  rw [if_pos hd]
  split <;> rfl

/-- A collision check that reports `false` leaves the world untouched. -/
theorem updateIfColliding_false (w : World) (i j fuel : ℕ)
    (h : (updateIfColliding w i j fuel).2 = false) :
    (updateIfColliding w i j fuel).1 = w := by
  unfold updateIfColliding at h ⊢
  by_cases hd : 0 < getDistanceToIntersection (getItem w (pickA w i j))
      (getItem w (pickB w i j))
  · rw [if_pos hd] at h
    exfalso
    revert h
    split <;> simp
  · rw [if_neg hd]

theorem tryCandidates_first_success (w : World) (src c : ℕ) (rest : List ℕ) :
    ∀ cs : List ℕ, (∀ c2 ∈ cs, (updateIfColliding w src c2 19).2 = false) →
      (updateIfColliding w src c 19).2 = true →
      tryCandidates w src (cs ++ c :: rest) = updateIfColliding w src c 19 := by
  intro cs
  induction cs with
  | nil =>
    intro _ hsucc
    show tryCandidates w src (c :: rest) = _
    unfold tryCandidates
    rw [if_pos hsucc, ← hsucc]
  | cons c2 cs ih =>
    intro hfail hsucc
    have h2 := hfail c2 (List.mem_cons_self c2 cs)
    show tryCandidates w src (c2 :: (cs ++ c :: rest)) = _
    unfold tryCandidates
    rw [if_neg (by rw [h2]; exact Bool.false_ne_true),
      updateIfColliding_false w src c2 19 h2]
    exact ih (fun x hx => hfail x (List.mem_cons_of_mem _ hx)) hsucc

/-- The source of the ordering scenario: center `(0, 0)`, moving. -/
def itS : Item :=
  { pos := ⟨-1, -1⟩, radius := 1, power := 1, speed := 1, course := 0,
    shotCourse := 0, shotCurve := none, shotOriginX := 0, shotOriginY := 0,
    shotDistance := 0, shotTraveled := 0, unused := 1, friction := 9/10,
    disabled := false }

/-- A resting item at distance 5 from the source (center `(5, 0)`). -/
def it5 : Item :=
  { pos := ⟨4, -1⟩, radius := 1, power := 1, speed := 0, course := 0,
    shotCourse := 0, shotCurve := none, shotOriginX := 0, shotOriginY := 0,
    shotDistance := 0, shotTraveled := 0, unused := 1, friction := 9/10,
    disabled := false }

/-- A resting item at distance 10 (center `(10, 0)`). -/
def it10 : Item :=
  { pos := ⟨9, -1⟩, radius := 1, power := 1, speed := 0, course := 0,
    shotCourse := 0, shotCurve := none, shotOriginX := 0, shotOriginY := 0,
    shotDistance := 0, shotTraveled := 0, unused := 1, friction := 9/10,
    disabled := false }

/-- A resting item at distance 15 (center `(15, 0)`). -/
def it15 : Item :=
  { pos := ⟨14, -1⟩, radius := 1, power := 1, speed := 0, course := 0,
    shotCourse := 0, shotCurve := none, shotOriginX := 0, shotOriginY := 0,
    shotDistance := 0, shotTraveled := 0, unused := 1, friction := 9/10,
    disabled := false }

theorem dist_S_S : distanceBetween itS itS = 0 := by
  unfold distanceBetween
  apply abcSquare_eval _ _ 0 _ (le_refl 0)
  norm_num

theorem dist_S_5 : distanceBetween itS it5 = 5 := by
  unfold distanceBetween
  apply abcSquare_eval _ _ 5 _ (by norm_num)
  norm_num [itS, it5]

theorem dist_S_10 : distanceBetween itS it10 = 10 := by
  unfold distanceBetween
  apply abcSquare_eval _ _ 10 _ (by norm_num)
  norm_num [itS, it10]

theorem dist_S_15 : distanceBetween itS it15 = 15 := by
  unfold distanceBetween
  apply abcSquare_eval _ _ 15 _ (by norm_num)
  norm_num [itS, it15]

/-- C9: during a collision pass the candidate items are tested in ascending
order of distance to the moving item, and the first confirmed collision stops
the pass; for three items at distances 5, 10 and 15 the visiting order of the
sweep is the source itself (distance 0, skipped by the loop) followed by
distances 5, 10, 15, whatever their registration order. -/
theorem C9_ascending_distance_order :
    (∀ (w : World) (src : ℕ),
      (orderByDistance w src).Perm (List.range (size w)) ∧
      (orderByDistance w src).Sorted (fun a b =>
        distanceBetween (getItem w src) (getItem w a) ≤
          distanceBetween (getItem w src) (getItem w b))) ∧
    (∀ l : List Item, l.Perm [it5, it10, it15] →
      List.map (fun k => distanceBetween (getItem (itS :: l) 0) (getItem (itS :: l) k))
        (orderByDistance (itS :: l) 0) = [0, 5, 10, 15]) ∧
    (∀ (w : World) (src c : ℕ) (cs rest : List ℕ),
      (∀ c2 ∈ cs, (updateIfColliding w src c2 19).2 = false) →
      (updateIfColliding w src c 19).2 = true →
      tryCandidates w src (cs ++ c :: rest) = updateIfColliding w src c 19) := by
  refine ⟨fun w src => ⟨orderByDistance_perm w src, orderByDistance_sorted w src⟩,
    ?_, fun w src c cs rest hfail hsucc =>
      tryCandidates_first_success w src c rest cs hfail hsucc⟩
  intro l hperm
  have hlen : l.length = 3 := hperm.length_eq
  have hsize : size (itS :: l) = 4 := by
    unfold size
    rw [List.length_cons, hlen]
  have hg0 : getItem (itS :: l) 0 = itS := rfl
  match l, hlen, hperm with
  | [a, b, c], _, hperm =>
    have hkey : ∀ k, distanceBetween (getItem (itS :: [a, b, c]) 0)
        (getItem (itS :: [a, b, c]) k) =
        distanceBetween itS (getItem (itS :: [a, b, c]) k) := fun k => rfl
    have hmapr : List.map (fun k => distanceBetween (getItem (itS :: [a, b, c]) 0)
        (getItem (itS :: [a, b, c]) k)) (List.range (size (itS :: [a, b, c]))) =
        [distanceBetween itS itS, distanceBetween itS a, distanceBetween itS b,
          distanceBetween itS c] := by
      rw [show List.range (size (itS :: [a, b, c])) = [0, 1, 2, 3] from rfl]
      rfl
    have hsorted : (List.map (fun k => distanceBetween (getItem (itS :: [a, b, c]) 0)
        (getItem (itS :: [a, b, c]) k)) (orderByDistance (itS :: [a, b, c]) 0)).Sorted
        (· ≤ ·) :=
      List.pairwise_map.mpr (orderByDistance_sorted (itS :: [a, b, c]) 0)
    have hpermmap : (List.map (fun k => distanceBetween (getItem (itS :: [a, b, c]) 0)
        (getItem (itS :: [a, b, c]) k)) (orderByDistance (itS :: [a, b, c]) 0)).Perm
        [0, 5, 10, 15] := by
      refine ((orderByDistance_perm (itS :: [a, b, c]) 0).map _).trans ?_
      rw [hmapr, dist_S_S]
      have h3 : ([distanceBetween itS a, distanceBetween itS b,
          distanceBetween itS c] : List ℝ).Perm [5, 10, 15] := by
        have := hperm.map (distanceBetween itS)
        rw [show List.map (distanceBetween itS) [it5, it10, it15] =
          [distanceBetween itS it5, distanceBetween itS it10,
            distanceBetween itS it15] from rfl, dist_S_5, dist_S_10, dist_S_15] at this
        exact this
      exact h3.cons 0
    refine List.eq_of_perm_of_sorted hpermmap hsorted ?_
    refine List.sorted_cons.mpr ⟨?_, List.sorted_cons.mpr ⟨?_,
      List.sorted_cons.mpr ⟨?_, List.sorted_singleton _⟩⟩⟩ <;>
      intro x hx <;> fin_cases hx <;> norm_num

/-- Witness for C9: the three targets registered in order 5, 10, 15 are
visited in that order, and the first confirmed candidate stops the pass. -/
theorem C9_ascending_distance_order_witness :
    List.map (fun k => distanceBetween (getItem (itS :: [it5, it10, it15]) 0)
        (getItem (itS :: [it5, it10, it15]) k))
      (orderByDistance (itS :: [it5, it10, it15]) 0) = [0, 5, 10, 15] ∧
    (updateIfColliding [itA, itB] 0 1 19).2 = true ∧
    tryCandidates [itA, itB] 0 ([] ++ 1 :: []) = updateIfColliding [itA, itB] 0 1 19 := by
  have hsucc : (updateIfColliding [itA, itB] 0 1 19).2 = true :=
    updateIfColliding_pos_true [itA, itB] 0 1 19 gdi_pick_AB
  exact ⟨C9_ascending_distance_order.2.1 [it5, it10, it15] (List.Perm.refl _),
    hsucc,
    C9_ascending_distance_order.2.2 [itA, itB] 0 1 [] [] (by simp) hsucc⟩

/-! ### The unused-budget invariant (C2) -/

/-- Per-item facts maintained throughout a tick: the movement budget stays in
`[0, 1]` and the speed stays non-negative. -/
def ItemBounds (it : Item) : Prop := 0 ≤ it.unused ∧ it.unused ≤ 1 ∧ 0 ≤ it.speed

/-- The world-level invariant of C2. -/
def UnusedInv (w : World) : Prop := ∀ it ∈ w, ItemBounds it

/-- Static sanity of the world: positive powers and non-negative frictions
(never modified by the engine). -/
def GoodStatic (w : World) : Prop := ∀ it ∈ w, 0 < it.power ∧ 0 ≤ it.friction

theorem default_step_zero : getStepDistance default = 0 := by
  show (0:ℝ) * (-1) = 0
  norm_num

theorem getItem_step_nonneg (w : World) (hw : UnusedInv w) (k : ℕ) :
    0 ≤ getStepDistance (getItem w k) := by
  by_cases hk : k < size w
  · obtain ⟨h0, h1, hs⟩ := hw _ (getItem_mem w k hk)
    exact getStepDistance_nonneg _ hs h0
  · rw [getItem_default w k hk, default_step_zero]

theorem index_in_range_of_step_ne (w : World) (k : ℕ)
    (h : getStepDistance (getItem w k) ≠ 0) : k < size w := by
  by_contra hk
  rw [getItem_default w k hk, default_step_zero] at h
  exact h rfl

theorem collisionMovedA_power (A B : Item) (dA : ℝ) :
    (collisionMovedA A B dA).power = A.power := by
  simp only [collisionMovedA]
  rw [apply_ite Item.power]
  split <;> rfl

theorem collisionMovedA_friction (A B : Item) (dA : ℝ) :
    (collisionMovedA A B dA).friction = A.friction := by
  simp only [collisionMovedA]
  rw [apply_ite Item.friction]
  split <;> rfl

theorem updateForCollision_static (A B : Item) (dA : ℝ) :
    (updateForCollision A B dA).1.power = A.power ∧
    (updateForCollision A B dA).1.friction = A.friction ∧
    (updateForCollision A B dA).2.power = B.power ∧
    (updateForCollision A B dA).2.friction = B.friction :=
  ⟨collisionMovedA_power A B dA, collisionMovedA_friction A B dA, rfl, rfl⟩

/-- Resolving a collision keeps A's budget in `[0, 1]` and its speed
non-negative: the consumed fraction is the root `t2 ∈ (0, 1]`. -/
theorem updateForCollision_bounds_A (A B : Item) (hA : ItemBounds A)
    (hd : 0 < getDistanceToIntersection A B) :
    ItemBounds (updateForCollision A B (getDistanceToIntersection A B)).1 := by
  obtain ⟨hAu0, hAu1, hAs⟩ := hA
  have hstep : 0 ≤ getStepDistance A := getStepDistance_nonneg A hAs hAu0
  obtain ⟨hdisc, ht2, ht2le, hsteppos, heq⟩ := gdi_pos_elim A B hstep hd
  have hfac : getDistanceToIntersection A B / getStepDistance A = rootT2 A B := by
    rw [heq, mul_div_assoc, div_self (ne_of_gt hsteppos), mul_one]
  refine ⟨?_, ?_, ?_⟩
  · show 0 ≤ A.unused * (getDistanceToIntersection A B / getStepDistance A)
    rw [hfac]
    exact mul_nonneg hAu0 (le_of_lt ht2)
  · show A.unused * (getDistanceToIntersection A B / getStepDistance A) ≤ 1
    rw [hfac]
    calc A.unused * rootT2 A B ≤ 1 * 1 :=
          mul_le_mul hAu1 ht2le (le_of_lt ht2) zero_le_one
      _ = 1 := mul_one 1
  · show 0 ≤ A.speed *
      |angleBetween A.course (collisionAbCourse A B (getDistanceToIntersection A B))|
    exact mul_nonneg hAs (abs_nonneg _)

/-- Resolving a collision keeps B's budget in `[0, 1]` (B consumes the same
fraction `t2` of its own step, or nothing when it is not moving) and gives it
a non-negative transferred speed. -/
theorem updateForCollision_bounds_B (A B : Item) (hAs : 0 ≤ A.speed)
    (hAu : 0 ≤ A.unused) (hB : ItemBounds B) (hpA : 0 ≤ A.power) (hpB : 0 ≤ B.power)
    (hd : 0 < getDistanceToIntersection A B) :
    ItemBounds (updateForCollision A B (getDistanceToIntersection A B)).2 := by
  obtain ⟨hBu0, hBu1, hBs⟩ := hB
  have hstep : 0 ≤ getStepDistance A := getStepDistance_nonneg A hAs hAu
  obtain ⟨hdisc, ht2, ht2le, hsteppos, heq⟩ := gdi_pos_elim A B hstep hd
  have hrev := gdi_rev A B hstep hd
  have hstepB : 0 ≤ getStepDistance B := getStepDistance_nonneg B hBs hBu0
  have hunused : (updateForCollision A B (getDistanceToIntersection A B)).2.unused =
      if getStepDistance B ≠ 0 then
        B.unused * (getDistanceToIntersection B A / getStepDistance B)
      else B.unused := rfl
  refine ⟨?_, ?_, ?_⟩
  · rw [hunused]
    split
    next hne =>
      rw [hrev, mul_div_assoc, div_self hne, mul_one]
      exact mul_nonneg hBu0 (le_of_lt ht2)
    next => exact hBu0
  · rw [hunused]
    split
    next hne =>
      rw [hrev, mul_div_assoc, div_self hne, mul_one]
      calc B.unused * rootT2 A B ≤ 1 * 1 :=
            mul_le_mul hBu1 ht2le (le_of_lt ht2) zero_le_one
        _ = 1 := mul_one 1
    next => exact hBu1
  · show 0 ≤ A.speed * A.power / B.power *
      (1 - |angleBetween A.course (collisionAbCourse A B (getDistanceToIntersection A B))|)
    apply mul_nonneg
    · exact div_nonneg (mul_nonneg hAs hpA) hpB
    · have := abs_angleBetween_le_one A.course
        (collisionAbCourse A B (getDistanceToIntersection A B))
      linarith

/-- Resolving a found collision between the items at `ai` and `bi` preserves
the invariant: every item of the updated world is an untouched member or one
of the two updated items, and both stay within bounds. -/
theorem resolve_inv (w : World) (ai bi : ℕ) (hw : UnusedInv w) (hst : GoodStatic w)
    (hd : 0 < getDistanceToIntersection (getItem w ai) (getItem w bi)) :
    UnusedInv (setItem (setItem w ai
        (updateForCollision (getItem w ai) (getItem w bi)
          (getDistanceToIntersection (getItem w ai) (getItem w bi))).1) bi
      (updateForCollision (getItem w ai) (getItem w bi)
        (getDistanceToIntersection (getItem w ai) (getItem w bi))).2) ∧
    GoodStatic (setItem (setItem w ai
        (updateForCollision (getItem w ai) (getItem w bi)
          (getDistanceToIntersection (getItem w ai) (getItem w bi))).1) bi
      (updateForCollision (getItem w ai) (getItem w bi)
        (getDistanceToIntersection (getItem w ai) (getItem w bi))).2) := by
  have hstep0 : 0 ≤ getStepDistance (getItem w ai) := getItem_step_nonneg w hw ai
  obtain ⟨_, _, _, hsteppos, _⟩ := gdi_pos_elim (getItem w ai) (getItem w bi) hstep0 hd
  have hair : ai < size w :=
    index_in_range_of_step_ne w ai (ne_of_gt hsteppos)
  have hAb : ItemBounds (getItem w ai) := hw _ (getItem_mem w ai hair)
  have hAst := hst _ (getItem_mem w ai hair)
  have hp1 : ItemBounds (updateForCollision (getItem w ai) (getItem w bi)
      (getDistanceToIntersection (getItem w ai) (getItem w bi))).1 :=
    updateForCollision_bounds_A _ _ hAb hd
  have hstatic := updateForCollision_static (getItem w ai) (getItem w bi)
    (getDistanceToIntersection (getItem w ai) (getItem w bi))
  by_cases hbir : bi < size w
  · have hBb : ItemBounds (getItem w bi) := hw _ (getItem_mem w bi hbir)
    have hBst := hst _ (getItem_mem w bi hbir)
    have hp2 : ItemBounds (updateForCollision (getItem w ai) (getItem w bi)
        (getDistanceToIntersection (getItem w ai) (getItem w bi))).2 :=
      updateForCollision_bounds_B _ _ hAb.2.2 hAb.1 hBb (le_of_lt hAst.1)
        (le_of_lt hBst.1) hd
    constructor
    · intro it hit
      rcases List.mem_or_eq_of_mem_set hit with hit1 | rfl
      · rcases List.mem_or_eq_of_mem_set hit1 with hit2 | rfl
        · exact hw _ hit2
        · exact hp1
      · exact hp2
    · intro it hit
      rcases List.mem_or_eq_of_mem_set hit with hit1 | rfl
      · rcases List.mem_or_eq_of_mem_set hit1 with hit2 | rfl
        · exact hst _ hit2
        · rw [hstatic.1, hstatic.2.1]
          exact hAst
      · rw [hstatic.2.2.1, hstatic.2.2.2]
        exact hBst
  · have hnoop : setItem (setItem w ai
        (updateForCollision (getItem w ai) (getItem w bi)
          (getDistanceToIntersection (getItem w ai) (getItem w bi))).1) bi
        (updateForCollision (getItem w ai) (getItem w bi)
          (getDistanceToIntersection (getItem w ai) (getItem w bi))).2 =
        setItem w ai (updateForCollision (getItem w ai) (getItem w bi)
          (getDistanceToIntersection (getItem w ai) (getItem w bi))).1 := by
      unfold setItem size at *
      apply List.set_eq_of_length_le
      rw [List.length_set]
      omega
    rw [hnoop]
    constructor
    · intro it hit
      rcases List.mem_or_eq_of_mem_set hit with hit2 | rfl
      · exact hw _ hit2
      · exact hp1
    · intro it hit
      rcases List.mem_or_eq_of_mem_set hit with hit2 | rfl
      · exact hst _ hit2
      · rw [hstatic.1, hstatic.2.1]
        exact hAst

/-- The recursive occlusion lookahead preserves the invariant. -/
theorem updateIfColliding_inv (fuel : ℕ) : ∀ (w : World) (i j : ℕ),
    UnusedInv w → GoodStatic w →
    UnusedInv (updateIfColliding w i j fuel).1 ∧
      GoodStatic (updateIfColliding w i j fuel).1 := by
  induction fuel with
  | zero =>
    intro w i j hw hst
    unfold updateIfColliding
    by_cases hd : 0 < getDistanceToIntersection (getItem w (pickA w i j))
        (getItem w (pickB w i j))
    · rw [if_pos hd, dif_neg (fun hc => hc.2 rfl)]
      exact resolve_inv w (pickA w i j) (pickB w i j) hw hst hd
    · rw [if_neg hd]
      exact ⟨hw, hst⟩
  | succ n ih =>
    intro w i j hw hst
    unfold updateIfColliding
    by_cases hd : 0 < getDistanceToIntersection (getItem w (pickA w i j))
        (getItem w (pickB w i j))
    · rw [if_pos hd]
      by_cases hc : getClosestItemAfterMove w (pickA w i j) (pickB w i j)
          (getDistanceToIntersection (getItem w (pickA w i j))
            (getItem w (pickB w i j))) ≠ pickB w i j ∧ n + 1 ≠ 0
      · rw [dif_pos hc]
        exact ih w (pickA w i j) (getClosestItemAfterMove w (pickA w i j) (pickB w i j)
          (getDistanceToIntersection (getItem w (pickA w i j))
            (getItem w (pickB w i j)))) hw hst
      · rw [dif_neg hc]
        exact resolve_inv w (pickA w i j) (pickB w i j) hw hst hd
    · rw [if_neg hd]
      exact ⟨hw, hst⟩

theorem tryCandidates_inv (src : ℕ) (cands : List ℕ) : ∀ (w : World),
    UnusedInv w → GoodStatic w →
    UnusedInv (tryCandidates w src cands).1 ∧ GoodStatic (tryCandidates w src cands).1 := by
  induction cands with
  | nil => intro w hw hst; exact ⟨hw, hst⟩
  | cons c rest ih =>
    intro w hw hst
    unfold tryCandidates
    have h := updateIfColliding_inv 19 w src c hw hst
    by_cases hb : (updateIfColliding w src c 19).2 = true
    · rw [if_pos hb]
      exact h
    · rw [if_neg hb]
      exact ih _ h.1 h.2

theorem collisionScan_inv (ks : List ℕ) : ∀ (w : World),
    UnusedInv w → GoodStatic w →
    UnusedInv (collisionScan w ks).1 ∧ GoodStatic (collisionScan w ks).1 := by
  induction ks with
  | nil => intro w hw hst; exact ⟨hw, hst⟩
  | cons k rest ih =>
    intro w hw hst
    unfold collisionScan
    by_cases hmov : (getItem w k).speed ≠ 0 ∧ (getItem w k).unused ≠ 0
    · rw [if_pos hmov]
      have h := tryCandidates_inv k (orderByDistance w k).tail w hw hst
      by_cases hb : (tryCandidates w k (orderByDistance w k).tail).2 = true
      · rw [if_pos hb]
        exact h
      · rw [if_neg hb]
        exact ih _ h.1 h.2
    · rw [if_neg hmov]
      exact ih w hw hst

theorem collisionStep_inv (w : World) (hw : UnusedInv w) (hst : GoodStatic w) :
    UnusedInv (collisionStep w).1 ∧ GoodStatic (collisionStep w).1 :=
  collisionScan_inv (List.range (size w)) w hw hst

theorem runPasses_inv (n : ℕ) : ∀ (w : World),
    UnusedInv w → GoodStatic w →
    UnusedInv (runPasses n w).1 ∧ GoodStatic (runPasses n w).1 := by
  induction n with
  | zero => intro w hw hst; exact ⟨hw, hst⟩
  | succ n ih =>
    intro w hw hst
    unfold runPasses
    have h := collisionStep_inv w hw hst
    by_cases hb : (collisionStep w).2 = true
    · rw [if_pos hb]
      exact ih _ h.1 h.2
    · rw [if_neg hb]
      exact h

theorem resetItems_inv (w : World) (hspeed : ∀ it ∈ w, 0 ≤ it.speed)
    (hst : GoodStatic w) :
    UnusedInv (resetItems w) ∧ GoodStatic (resetItems w) := by
  constructor
  · intro it hit
    obtain ⟨a, ha, rfl⟩ := List.mem_map.mp hit
    exact ⟨zero_le_one, le_refl 1, hspeed a ha⟩
  · intro it hit
    obtain ⟨a, ha, rfl⟩ := List.mem_map.mp hit
    exact hst a ha

theorem applyItem_bounds (it : Item) (h : ItemBounds it) (hf : 0 ≤ it.friction) :
    ItemBounds (applyItem it) := by
  obtain ⟨h0, h1, hs⟩ := h
  by_cases hc : it.speed ≠ 0 ∧ it.unused ≠ 0
  · cases hcu : it.shotCurve with
    | none =>
      simp only [applyItem, hcu]
      rw [if_pos hc]
      refine ⟨le_refl 0, zero_le_one, ?_⟩
      dsimp only
      split
      · exact le_refl 0
      · exact mul_nonneg hs hf
    | some c =>
      simp only [applyItem, hcu]
      rw [if_pos hc]
      refine ⟨le_refl 0, zero_le_one, ?_⟩
      dsimp only
      split
      · exact le_refl 0
      · exact mul_nonneg hs hf
  · unfold applyItem
    rw [if_neg hc]
    exact ⟨h0, h1, hs⟩

theorem applyPhysics_inv (w : World) (hw : UnusedInv w) (hst : GoodStatic w) :
    ∀ it ∈ (applyPhysics w).1, 0 ≤ it.unused ∧ it.unused ≤ 1 := by
  intro it hit
  obtain ⟨a, ha, rfl⟩ := List.mem_map.mp hit
  have h := applyItem_bounds a (hw a ha) (hst a ha).2
  exact ⟨h.1, h.2.1⟩

/-- C2: for every item, at every point during and after a tick — after the
reset, after each collision pass (hence after each collision resolution), and
after `tick()` returns — `unused` lies in `[0, 1]`. -/
theorem C2_unused_in_unit_interval (w : World)
    (hspeed : ∀ it ∈ w, 0 ≤ it.speed) (hst : GoodStatic w) :
    (∀ it ∈ resetItems w, 0 ≤ it.unused ∧ it.unused ≤ 1) ∧
    (∀ w2 : World, UnusedInv w2 → GoodStatic w2 →
      UnusedInv (collisionStep w2).1 ∧ GoodStatic (collisionStep w2).1) ∧
    (∀ it ∈ (tick w).1, 0 ≤ it.unused ∧ it.unused ≤ 1) := by
  have hreset := resetItems_inv w hspeed hst
  refine ⟨fun it hit => ⟨(hreset.1 it hit).1, (hreset.1 it hit).2.1⟩,
    fun w2 hw2 hst2 => collisionStep_inv w2 hw2 hst2, ?_⟩
  have hrun := runPasses_inv 10 (resetItems w) hreset.1 hreset.2
  exact applyPhysics_inv _ hrun.1 hrun.2

/-- Witness for C2 at a concrete two-item world. -/
theorem C2_unused_in_unit_interval_witness :
    (∀ it ∈ ([itP, itQ] : World), 0 ≤ it.speed) ∧
    GoodStatic [itP, itQ] ∧
    (∀ it ∈ (tick [itP, itQ]).1, 0 ≤ it.unused ∧ it.unused ≤ 1) := by
  have hs : ∀ it ∈ ([itP, itQ] : World), 0 ≤ it.speed := by
    intro it hit
    fin_cases hit <;> norm_num [itP, itQ]
  have hst : GoodStatic [itP, itQ] := by
    intro it hit
    rcases List.mem_cons.mp hit with rfl | hit2
    · constructor <;> norm_num [itP]
    · rcases List.mem_cons.mp hit2 with rfl | hit3
      · constructor <;> norm_num [itQ]
      · cases hit3
  exact ⟨hs, hst, (C2_unused_in_unit_interval [itP, itQ] hs hst).2.2⟩

end CirclePhysics
